import Mathlib

/-!
Verification of the parser-coordination core of the PycoordUpdate repository
(`utils/parser_utils.py` and `utils/path_utils.py`), shallowly embedded in
Lean 4.  Python dictionaries are modelled as insertion-ordered association
lists, Python values occurring in events as the inductive `Value`, and the
Python `set` of processed event hashes as a duplicate-free list of its
elements (kept in insertion order purely as a canonical representation of
the set's contents).  CPython leaves set iteration order unspecified, so
wherever the source enumerates the set — `list(s)` inside
`_prune_old_hashes` — the enumeration is an explicit parameter `enum`;
theorems about pruning quantify over every `enum` that enumerates exactly
the set's elements (`(enum l).Perm l`), and adversarial enumerations such as
`List.reverse` witness behaviours the program does not rule out.

The file is organised as definitions first (the embedding of the source),
then theorems about the claims.
-/

set_option maxRecDepth 8000

namespace Pycoord

/-- A naive (timezone-free) `datetime.datetime` value: year, month, day,
hour, minute, second, microsecond. -/
structure Datetime where
  year : Nat
  month : Nat
  day : Nat
  hour : Nat
  minute : Nat
  second : Nat
  microsecond : Nat
deriving DecidableEq, Repr

/-- Zero-pad the decimal representation of `n` to width `w`. -/
def pad (w n : Nat) : String :=
  let s := toString n
  String.mk (List.replicate (w - s.length) '0') ++ s

/-- `datetime.isoformat` with a chosen separator: the microsecond part is
printed exactly when it is nonzero, as in CPython. -/
def isoformatSep (sep : String) (d : Datetime) : String :=
  pad 4 d.year ++ "-" ++ pad 2 d.month ++ "-" ++ pad 2 d.day ++ sep ++
    pad 2 d.hour ++ ":" ++ pad 2 d.minute ++ ":" ++ pad 2 d.second ++
    (if d.microsecond = 0 then "" else "." ++ pad 6 d.microsecond)

/-- `datetime.isoformat()` (separator `T`). -/
def isoformat (d : Datetime) : String := isoformatSep "T" d

/-- Python values that occur in event dictionaries: `None`, `str`, `int`
and `datetime.datetime`. -/
inductive Value where
  | VNone : Value
  | VStr : String → Value
  | VInt : Int → Value
  | VDt : Datetime → Value
deriving DecidableEq, Repr

/-- Python `str(value)`; `str` of a datetime is its space-separated
isoformat. -/
def pyStr : Value → String
  | .VNone => "None"
  | .VStr s => s
  | .VInt n => toString n
  | .VDt d => isoformatSep " " d

/-- Python truthiness of a `Value` (`None`, `""` and `0` are falsy). -/
def pyTruthy : Value → Bool
  | .VNone => false
  | .VStr s => s ≠ ""
  | .VInt n => n ≠ 0
  | .VDt _ => true

/-- A Python `dict` keyed by strings, as an insertion-ordered association
list with unique keys. -/
abbrev Event := List (String × Value)

/-- Lookup of a key in an association list (first match). -/
def lookupAssoc {κ α : Type} [DecidableEq κ] : List (κ × α) → κ → Option α
  | [], _ => none
  | (k, v) :: rest, key => if k = key then some v else lookupAssoc rest key

/-- `dict.__setitem__`: replace the value at the key if present (keeping its
position), otherwise append the new binding at the end. -/
def setAssoc {κ α : Type} [DecidableEq κ] : List (κ × α) → κ → α → List (κ × α)
  | [], key, v => [(key, v)]
  | (k, w) :: rest, key, v =>
      if k = key then (k, v) :: rest else (k, w) :: setAssoc rest key v

/-- `key in dict`. -/
def containsKey (e : Event) (k : String) : Bool := (lookupAssoc e k).isSome

/-- `dict.get(key)` — returns `None` when the key is absent. -/
def pyGet (e : Event) (k : String) : Value := (lookupAssoc e k).getD .VNone

/-- `dict.get(key, default)`. -/
def pyGetD (e : Event) (k : String) (d : Value) : Value :=
  (lookupAssoc e k).getD d

/-- `dict[key] = value`. -/
def setKey (e : Event) (k : String) (v : Value) : Event := setAssoc e k v

/-- The shared mutable state of `ParserCoordinator.__init__`: the two
per-server cursor maps, the set of processed event hashes (a duplicate-free
list of the set's elements; its enumeration order, where the source relies
on it, is an explicit parameter of the pruning operation) and the (unused)
one-hour window constant. -/
structure CoordState where
  last_processed_csv_timestamps : List (String × Datetime)
  last_processed_log_timestamps : List (String × Datetime)
  processed_event_hashes : List String
  recent_event_window : Nat
deriving DecidableEq, Repr

/-- The freshly constructed coordinator. -/
def initState : CoordState := ⟨[], [], [], 3600⟩

/-- Deterministic stand-in for CPython's `hash` on strings (the real hash is
process-salted SipHash; only its determinism within a process is relevant,
and no claim depends on its concrete values). -/
def pyHash (s : String) : Nat :=
  s.data.foldl (fun a c => (a * 31 + c.toNat) % 1000000007) 7

/-- Models `str(event)` as used in the fallback hash branch: a deterministic
structural serialization of the dict (CPython `repr` quoting and escaping are
abstracted). -/
def strOfEvent (e : Event) : String :=
  String.intercalate ", " (e.map (fun p => p.1 ++ ": " ++ pyStr p.2))

/-- The timestamp part of every branch of `generate_event_hash`:
`event.get("timestamp", "")`, converted with `isoformat` when it is a
datetime, and interpolated with `str` otherwise. -/
def hashTs (e : Event) : String :=
  match pyGetD e "timestamp" (.VStr "") with
  | .VDt d => isoformat d
  | v => pyStr v

/-- `ParserCoordinator.generate_event_hash`. -/
def generate_event_hash (e : Event) : String :=
  if containsKey e "killer_id" = true ∧ containsKey e "victim_id" = true then
    hashTs e ++ "_" ++ pyStr (pyGetD e "killer_id" (.VStr "")) ++ "_" ++
      pyStr (pyGetD e "victim_id" (.VStr "")) ++ "_" ++
      pyStr (pyGetD e "weapon" (.VStr ""))
  else if containsKey e "event_type" = true ∧ pyGet e "event_type" = .VStr "mission" then
    hashTs e ++ "_" ++ pyStr (pyGetD e "mission_name" (.VStr "")) ++ "_" ++
      pyStr (pyGetD e "location" (.VStr ""))
  else if containsKey e "event_type" = true ∧
      pyGet e "event_type" ∈ [Value.VStr "airdrop", .VStr "helicrash", .VStr "trader", .VStr "convoy"] then
    hashTs e ++ "_" ++ pyStr (pyGetD e "event_type" (.VStr "")) ++ "_" ++
      pyStr (pyGetD e "event_id" (.VStr ""))
  else if containsKey e "event_type" = true ∧
      pyGet e "event_type" ∈ [Value.VStr "register", .VStr "unregister", .VStr "join", .VStr "kick"] then
    hashTs e ++ "_" ++ pyStr (pyGetD e "event_type" (.VStr "")) ++ "_" ++
      pyStr (pyGetD e "player_id" (.VStr ""))
  else
    hashTs e ++ "_" ++ toString (pyHash (strOfEvent e))

/-- `ParserCoordinator._prune_old_hashes`, acting on the hash set: above
10,000 entries, `set(list(s)[-1000:])` keeps the last 1,000 elements of the
set's iteration order.  CPython does not specify that order, so `list(s)` is
modelled as `enum l` for an explicit enumeration parameter; an `enum` is
admissible when it enumerates exactly the set's elements
(`(enum l).Perm l`), and which 1,000 elements survive depends on it. -/
def prune_old_hashes (enum : List String → List String) (l : List String) : List String :=
  if l.length > 10000 then
    if l.length > 1000 then (enum l).drop ((enum l).length - 1000) else l
  else l

/-- `ParserCoordinator.is_duplicate_event`: returns the boolean result and
the coordinator state after the call; `enum` is the set-enumeration order
used by the prune (see `prune_old_hashes`). -/
def is_duplicate_event (enum : List String → List String) (s : CoordState) (e : Event) :
    Bool × CoordState :=
  let h := generate_event_hash e
  if h ∈ s.processed_event_hashes then (true, s)
  else
    (false, { s with processed_event_hashes :=
        prune_old_hashes enum (s.processed_event_hashes ++ [h]) })

/-- `ParserCoordinator.update_csv_timestamp`. -/
def update_csv_timestamp (s : CoordState) (sid : String) (t : Datetime) : CoordState :=
  { s with last_processed_csv_timestamps :=
      setAssoc s.last_processed_csv_timestamps sid t }

/-- `ParserCoordinator.update_log_timestamp`. -/
def update_log_timestamp (s : CoordState) (sid : String) (t : Datetime) : CoordState :=
  { s with last_processed_log_timestamps :=
      setAssoc s.last_processed_log_timestamps sid t }

/-- `ParserCoordinator.get_last_csv_timestamp`. -/
def get_last_csv_timestamp (s : CoordState) (sid : String) : Option Datetime :=
  lookupAssoc s.last_processed_csv_timestamps sid

/-- `ParserCoordinator.get_last_log_timestamp`. -/
def get_last_log_timestamp (s : CoordState) (sid : String) : Option Datetime :=
  lookupAssoc s.last_processed_log_timestamps sid

/-- Monotone encoding of a datetime used to compare datetimes (fields of a
valid datetime are within their calendar ranges, so lexicographic comparison
agrees with this encoding). -/
def dtKey (d : Datetime) : Nat :=
  ((((d.year * 13 + d.month) * 32 + d.day) * 24 + d.hour) * 60 + d.minute) * 61000000 +
    d.second * 1000000 + d.microsecond

/-- `a < b` on datetimes. -/
def dtLt (a b : Datetime) : Bool := dtKey a < dtKey b

/-- `ParserCoordinator.should_process_csv`. -/
def should_process_csv (s : CoordState) (sid : String) (t : Datetime) : Bool :=
  match get_last_csv_timestamp s sid with
  | none => true
  | some last => dtLt last t

/-- `ParserCoordinator.should_process_log`. -/
def should_process_log (s : CoordState) (sid : String) (t : Datetime) : Bool :=
  match get_last_log_timestamp s sid with
  | none => true
  | some last => dtLt last t

/-- Repeatedly calling `is_duplicate_event` on a list of events, keeping the
final coordinator state. -/
def processList (enum : List String → List String) (s : CoordState) (es : List Event) :
    CoordState :=
  es.foldl (fun acc e => (is_duplicate_event enum acc e).2) s

/-- A concrete kill event used for the C1 counterexample and witness. -/
def c1ev : Event := [("killer_id", Value.VStr "k"), ("victim_id", Value.VStr "v")]

/-- A coordinator state that already contains the fingerprint of `c1ev`. -/
def c1st : CoordState := ⟨[], [], [generate_event_hash c1ev], 3600⟩

/-- A fixed datetime literal used in concrete witnesses. -/
def dt0 : Datetime := ⟨2024, 1, 2, 3, 4, 5, 0⟩

/-- The string made of `i` letters `a`; used to build events with
pairwise-distinct fingerprints for the C3 witness. -/
def aStr (i : Nat) : String := String.mk (List.replicate i 'a')

/-- A kill event whose fingerprint has length `i + 3`. -/
def mkEv (i : Nat) : Event :=
  [("killer_id", Value.VStr (aStr i)), ("victim_id", Value.VStr "")]

/-- A coordinator state holding exactly 10,000 pairwise-distinct
fingerprints, none of which is the fingerprint of `mkEv 10000`: the next
fresh insertion triggers the prune. -/
def s10k : CoordState :=
  ⟨[], [], (List.range 10000).map (generate_event_hash ∘ mkEv), 3600⟩

/-- Decimal value of a list of digit characters. -/
def digitsVal (cs : List Char) : Nat :=
  cs.foldl (fun a c => a * 10 + (c.toNat - 48)) 0

/-- Read exactly two ASCII digits. -/
def read2 : List Char → Option (Nat × List Char)
  | a :: b :: rest =>
      if a.isDigit ∧ b.isDigit then some (digitsVal [a, b], rest) else none
  | _ => none

/-- Leap-year test of the proleptic Gregorian calendar, as in CPython's
`datetime`. -/
def isLeap (y : Nat) : Bool := y % 4 == 0 && (y % 100 != 0 || y % 400 == 0)

/-- Number of days in a month. -/
def daysInMonth (y m : Nat) : Nat :=
  if m = 2 then (if isLeap y then 29 else 28)
  else if m = 4 ∨ m = 6 ∨ m = 9 ∨ m = 11 then 30
  else 31

/-- The range validation performed by the `datetime` constructor: returns the
datetime when every field is in range, and `none` (a `ValueError`) otherwise. -/
def mkDatetime? (y mo d h mi s us : Nat) : Option Datetime :=
  if 1 ≤ y ∧ y ≤ 9999 ∧ 1 ≤ mo ∧ mo ≤ 12 ∧ 1 ≤ d ∧ d ≤ daysInMonth y mo ∧
      h ≤ 23 ∧ mi ≤ 59 ∧ s ≤ 59 ∧ us ≤ 999999 then
    some ⟨y, mo, d, h, mi, s, us⟩
  else none

/-- The time part of `datetime.fromisoformat`: `HH[:MM[:SS[.fff[fff]]]]`,
with exactly two digits per component and a fraction of exactly three or six
digits; trailing input (CPython would try to read a timezone offset there,
which our naive-datetime model does not support) is rejected. -/
def isoTime (cs : List Char) : Option (Nat × Nat × Nat × Nat) := do
  let (h, r1) ← read2 cs
  match r1 with
  | [] => some (h, 0, 0, 0)
  | ':' :: r2 =>
    let (mi, r3) ← read2 r2
    match r3 with
    | [] => some (h, mi, 0, 0)
    | ':' :: r4 =>
      let (s, r5) ← read2 r4
      match r5 with
      | [] => some (h, mi, s, 0)
      | '.' :: r6 =>
        if r6.all Char.isDigit ∧ r6.length = 3 then some (h, mi, s, digitsVal r6 * 1000)
        else if r6.all Char.isDigit ∧ r6.length = 6 then some (h, mi, s, digitsVal r6)
        else none
      | _ => none
    | _ => none
  | _ => none

/-- `datetime.fromisoformat` (CPython 3.10 grammar, naive datetimes): a
strict `YYYY-MM-DD` date, optionally followed by any single separator
character and a time; raises (`none`) otherwise. -/
def pyFromIso (str : String) : Option Datetime :=
  match str.data with
  | y1 :: y2 :: y3 :: y4 :: '-' :: m1 :: m2 :: '-' :: d1 :: d2 :: rest =>
    if [y1, y2, y3, y4, m1, m2, d1, d2].all Char.isDigit then
      let y := digitsVal [y1, y2, y3, y4]
      let mo := digitsVal [m1, m2]
      let d := digitsVal [d1, d2]
      match rest with
      | [] => mkDatetime? y mo d 0 0 0 0
      | _sep :: tcs => do
        let (h, mi, s, us) ← isoTime tcs
        mkDatetime? y mo d h mi s us
    else none
  | _ => none

/-- Split a character list into its leading run of ASCII digits and the
rest. -/
def spanDigits (cs : List Char) : List Char × List Char :=
  (cs.takeWhile Char.isDigit, cs.dropWhile Char.isDigit)

/-- `strptime` `%Y`: exactly four digits (a longer digit run cannot match
because the following literal would then face a digit). -/
def pY (cs : List Char) : Option (Nat × List Char) :=
  let (ds, r) := spanDigits cs
  if ds.length = 4 then some (digitsVal ds, r) else none

/-- `strptime` `%m`/`%d`/`%H`/`%M`/`%S`: a greedy run of one or two digits
(the regex `\d{1,2}` followed by a non-digit literal or the end). -/
def p12 (cs : List Char) : Option (Nat × List Char) :=
  let (ds, r) := spanDigits cs
  if 1 ≤ ds.length ∧ ds.length ≤ 2 then some (digitsVal ds, r) else none

/-- `strptime` `%f`: one to six digits, scaled to microseconds. -/
def pf (cs : List Char) : Option (Nat × List Char) :=
  let (ds, r) := spanDigits cs
  if 1 ≤ ds.length ∧ ds.length ≤ 6 then
    some (digitsVal ds * 10 ^ (6 - ds.length), r)
  else none

/-- Consume one expected literal character. -/
def lit (c : Char) : List Char → Option (List Char)
  | c' :: r => if c' = c then some r else none
  | [] => none

/-- `datetime.strptime(s, "%Y.%m.%d-%H.%M.%S")`. -/
def strptime1 (str : String) : Option Datetime := do
  let (y, r) ← pY str.data
  let r ← lit '.' r
  let (mo, r) ← p12 r
  let r ← lit '.' r
  let (d, r) ← p12 r
  let r ← lit '-' r
  let (h, r) ← p12 r
  let r ← lit '.' r
  let (mi, r) ← p12 r
  let r ← lit '.' r
  let (s, r) ← p12 r
  if r = [] then mkDatetime? y mo d h mi s 0 else none

/-- `datetime.strptime(s, "%Y.%m.%d-%H.%M.%S:%f")`. -/
def strptime2 (str : String) : Option Datetime := do
  let (y, r) ← pY str.data
  let r ← lit '.' r
  let (mo, r) ← p12 r
  let r ← lit '.' r
  let (d, r) ← p12 r
  let r ← lit '-' r
  let (h, r) ← p12 r
  let r ← lit '.' r
  let (mi, r) ← p12 r
  let r ← lit '.' r
  let (s, r) ← p12 r
  let r ← lit ':' r
  let (us, r) ← pf r
  if r = [] then mkDatetime? y mo d h mi s us else none

/-- `datetime.strptime(s, "%Y-%m-%d %H:%M:%S")`. -/
def strptime3 (str : String) : Option Datetime := do
  let (y, r) ← pY str.data
  let r ← lit '-' r
  let (mo, r) ← p12 r
  let r ← lit '-' r
  let (d, r) ← p12 r
  let r ← lit ' ' r
  let (h, r) ← p12 r
  let r ← lit ':' r
  let (mi, r) ← p12 r
  let r ← lit ':' r
  let (s, r) ← p12 r
  if r = [] then mkDatetime? y mo d h mi s 0 else none

/-- `datetime.strptime(s, "%Y-%m-%d %H:%M:%S.%f")`. -/
def strptime4 (str : String) : Option Datetime := do
  let (y, r) ← pY str.data
  let r ← lit '-' r
  let (mo, r) ← p12 r
  let r ← lit '-' r
  let (d, r) ← p12 r
  let r ← lit ' ' r
  let (h, r) ← p12 r
  let r ← lit ':' r
  let (mi, r) ← p12 r
  let r ← lit ':' r
  let (s, r) ← p12 r
  let r ← lit '.' r
  let (us, r) ← pf r
  if r = [] then mkDatetime? y mo d h mi s us else none

/-- The `for fmt in common_formats` loop of `normalize_event_data`: the four
fallback formats attempted in order, first success wins. -/
def tryFormats (s : String) : Option Datetime :=
  match strptime1 s with
  | some d => some d
  | none =>
    match strptime2 s with
    | some d => some d
    | none =>
      match strptime3 s with
      | some d => some d
      | none => strptime4 s

/-- Models `int(float(s))` on plain decimal literals (optional sign, digits,
optional fractional part; truncation toward zero): `none` is a raised
`ValueError`.  Exponent/infinity/whitespace forms accepted by Python's
`float` are not modelled; no claim exercises them. -/
def pyFloatInt? (s : String) : Option Int :=
  let (neg, cs) :=
    match s.data with
    | '-' :: r => (true, r)
    | '+' :: r => (false, r)
    | cs => (false, cs)
  let (ip, r1) := spanDigits cs
  let whole : Option Nat :=
    match r1 with
    | [] => if ip = [] then none else some (digitsVal ip)
    | '.' :: r2 =>
      let (fp, r3) := spanDigits r2
      if r3 = [] ∧ (ip ≠ [] ∨ fp ≠ []) then some (digitsVal ip) else none
    | _ => none
  match whole with
  | none => none
  | some n => some (if neg then -(n : Int) else (n : Int))

/-- `event.copy()`: a top-level (shallow) copy; on the immutable pure
representation this is the identity — the aliasing consequences are modelled
by `normalize_event_data_heap` below. -/
def pyDictCopy (e : Event) : Event := e

/-- Lines 221–253 of `normalize_event_data`: parse a string timestamp with
`fromisoformat`, then the four fallback formats in order, then substitute the
current time `now`; a missing timestamp key is replaced by `now`; a
non-string timestamp is left untouched. -/
def step_timestamp (now : Datetime) (d : Event) : Event :=
  if containsKey d "timestamp" = true then
    match pyGet d "timestamp" with
    | .VStr s =>
      match pyFromIso s with
      | some dt => setKey d "timestamp" (.VDt dt)
      | none =>
        match tryFormats s with
        | some dt => setKey d "timestamp" (.VDt dt)
        | none => setKey d "timestamp" (.VDt now)
    | _ => d
  else setKey d "timestamp" (.VDt now)

/-- Line 256: `killer_id` is coerced from `None` to `""`. -/
def step_killer_none (d : Event) : Event :=
  if containsKey d "killer_id" = true ∧ pyGet d "killer_id" = .VNone then
    setKey d "killer_id" (.VStr "")
  else d

/-- Lines 262–271: console-field defaulting — synthesize both consoles when
neither key is present, otherwise an `elif` chain that coerces at most one
null console per call. -/
def step_consoles (d : Event) : Event :=
  if containsKey d "killer_console" = false ∧ containsKey d "victim_console" = false then
    setKey (setKey d "killer_console" (.VStr "Unknown")) "victim_console" (.VStr "Unknown")
  else if pyGet d "killer_console" = .VNone then
    setKey d "killer_console" (.VStr "Unknown")
  else if pyGet d "victim_console" = .VNone then
    setKey d "victim_console" (.VStr "Unknown")
  else d

/-- Lines 275–293: suicide/kill tagging.  When the weapon is exactly
`suicide_by_relocation` or `suicide`: equal IDs tag `suicide`; otherwise
matching names tag `suicide` and overwrite `killer_id` with the value of
`victim_id`; otherwise nothing is tagged.  Without such a weapon: equal IDs
tag `suicide`, anything else tags `kill`. -/
def step_classify (d : Event) : Event :=
  if pyGet d "weapon" = .VStr "suicide_by_relocation" ∨ pyGet d "weapon" = .VStr "suicide" then
    if pyGet d "killer_id" = pyGet d "victim_id" then
      setKey d "event_type" (.VStr "suicide")
    else if pyGet d "killer_name" = pyGet d "victim_name" then
      setKey (setKey d "event_type" (.VStr "suicide")) "killer_id" (pyGet d "victim_id")
    else d
  else if pyGet d "killer_id" = pyGet d "victim_id" then
    setKey d "event_type" (.VStr "suicide")
  else setKey d "event_type" (.VStr "kill")

/-- Lines 261–293: the whole block guarded by both ID keys being present. -/
def step_kill_block (d : Event) : Event :=
  if containsKey d "killer_id" = true ∧ containsKey d "victim_id" = true then
    step_classify (step_consoles d)
  else d

/-- Line 295: `victim_id` is coerced from `None` to `""`. -/
def step_victim_none (d : Event) : Event :=
  if containsKey d "victim_id" = true ∧ pyGet d "victim_id" = .VNone then
    setKey d "victim_id" (.VStr "")
  else d

/-- Line 298: `player_id` is coerced from `None` to `""`. -/
def step_player_none (d : Event) : Event :=
  if containsKey d "player_id" = true ∧ pyGet d "player_id" = .VNone then
    setKey d "player_id" (.VStr "")
  else d

/-- Lines 302–304: the string fields are coerced from `None` to `""`. -/
def step_strings (d : Event) : Event :=
  ["killer_name", "victim_name", "player_name", "weapon", "location"].foldl
    (fun d f =>
      if containsKey d f = true ∧ pyGet d f = .VNone then setKey d f (.VStr "") else d)
    d

/-- Lines 307–316: `distance` is coerced from `None` to `0`, and from a
string to `int(float(s))` with fallback `0`. -/
def step_distance (d : Event) : Event :=
  let d1 :=
    if containsKey d "distance" = true ∧ pyGet d "distance" = .VNone then
      setKey d "distance" (.VInt 0)
    else d
  if containsKey d1 "distance" = true then
    match pyGet d1 "distance" with
    | .VStr s => setKey d1 "distance" (.VInt ((pyFloatInt? s).getD 0))
    | _ => d1
  else d1

/-- The field updates of `normalize_event_data`, in source order, applied to
the copied dict. -/
def normalizeSteps (now : Datetime) (d : Event) : Event :=
  step_distance (step_strings (step_player_none (step_victim_none
    (step_kill_block (step_killer_none (step_timestamp now d))))))

/-- `normalize_event_data` (pure view): copy the input and apply the update
steps; `now` stands for `datetime.utcnow()`. -/
def normalize_event_data (e : Event) (now : Datetime) : Event :=
  normalizeSteps now (pyDictCopy e)

/-- `b.startswith("/")` on the path components of `os.path.join`. -/
def startsWithSlash (s : String) : Bool := decide (s.data.head? = some '/')

/-- `a.endswith("/")`. -/
def endsWithSlash (s : String) : Bool := decide (s.data.getLast? = some '/')

/-- `os.path.join(a, b)` for POSIX paths: an absolute second component
resets the path; otherwise a separator is inserted unless `a` is empty or
already ends with one. -/
def pyPathJoin (a b : String) : String :=
  if startsWithSlash b = true then b
  else if a = "" ∨ endsWithSlash a = true then a ++ b
  else a ++ "/" ++ b

/-- `clean_hostname`: `"server"` for a missing or empty hostname, otherwise
everything before the first colon (`hostname.split(':')[0]`). -/
def clean_hostname : Option String → String
  | none => "server"
  | some h =>
    if h = "" then "server"
    else String.mk (h.data.takeWhile (fun c => decide (c ≠ ':')))

/-- `get_base_path`. -/
def get_base_path (hostname : Option String) (server_id : String) : String :=
  pyPathJoin "/" (clean_hostname hostname ++ "_" ++ server_id)

/-- `get_log_path`. -/
def get_log_path (hostname : Option String) (server_id : String) : String :=
  pyPathJoin (get_base_path hostname server_id) "Logs"

/-- `get_csv_path`: `base/actual1/deathlogs`, with the world directory
appended when given (and truthy). -/
def get_csv_path (hostname : Option String) (server_id : String)
    (world_dir : Option String) : String :=
  let base_path := pyPathJoin (pyPathJoin (get_base_path hostname server_id) "actual1") "deathlogs"
  match world_dir with
  | some w => if w ≠ "" then pyPathJoin base_path w else base_path
  | none => base_path

/-- `get_log_file_path` (the second of the two identical-behaviour
definitions in the source file; the first is shadowed). -/
def get_log_file_path (hostname : Option String) (server_id : String) : String :=
  pyPathJoin (get_log_path hostname server_id) "Deadside.log"

/-- A heap of Python dict objects, identified by numeric ids; used to state
the no-mutation (frame) property of `normalize_event_data`. -/
structure PyHeap where
  cells : List (Nat × Event)

/-- Dereference a dict id (the empty dict for a dangling id). -/
def heapGet (h : PyHeap) (i : Nat) : Event := (lookupAssoc h.cells i).getD []

/-- The allocated ids. -/
def heapDom (h : PyHeap) : List Nat := h.cells.map Prod.fst

/-- An id not yet allocated. -/
def freshId (h : PyHeap) : Nat := (heapDom h).foldr max 0 + 1

/-- Write a dict cell. -/
def heapSet (h : PyHeap) (i : Nat) (e : Event) : PyHeap := ⟨setAssoc h.cells i e⟩

/-- `normalize_event_data` with dict identity made explicit: the function
allocates a fresh dict holding `event.copy()` and performs every field
update of `normalizeSteps` on that fresh dict — no write ever targets the
argument's id, which is the source's aliasing behaviour. -/
def normalize_event_data_heap (h : PyHeap) (eid : Nat) (now : Datetime) : PyHeap × Nat :=
  let nid := freshId h
  let h1 := heapSet h nid (pyDictCopy (heapGet h eid))
  let h2 := heapSet h1 nid (normalizeSteps now (heapGet h1 nid))
  (h2, nid)

/-- ASCII lowercase conversion, as `str.lower` behaves on the ASCII strings
relevant here. -/
def lowerChar (c : Char) : Char :=
  if 'A' ≤ c ∧ c ≤ 'Z' then Char.ofNat (c.toNat + 32) else c

/-- `s.lower()` (ASCII). -/
def pyLower (s : String) : String := String.mk (s.data.map lowerChar)

/-- Contiguous-sublist test on character lists. -/
def subList (needle : List Char) : List Char → Bool
  | [] => needle.isEmpty
  | c :: rest => List.isPrefixOf needle (c :: rest) || subList needle rest

/-- Python `needle in hay` on strings. -/
def strContains (hay kw : String) : Bool := subList kw.data hay.data

/-- The suicide keyword list of `categorize_event` (line 382). -/
def suicideKeywords : List String :=
  ["suicide", "fall", "falling", "drown", "drowning", "relog", "relocation"]

/-- Lines 356–394 of `categorize_event`: the killer/victim block and the
connection/unknown fallbacks. -/
def categorize_kv (e : Event) : Option String :=
  if containsKey e "killer_id" = true ∧ containsKey e "victim_id" = true then
    let k := pyGetD e "killer_id" (.VStr "")
    let v := pyGetD e "victim_id" (.VStr "")
    if pyTruthy k = true ∧ pyTruthy v = true ∧ k = v then some "suicide"
    else if (containsKey e "killer_name" = true ∧ containsKey e "victim_name" = true) ∧
        pyTruthy (pyGetD e "killer_name" (.VStr "")) = true ∧
        pyTruthy (pyGetD e "victim_name" (.VStr "")) = true ∧
        pyGetD e "killer_name" (.VStr "") = pyGetD e "victim_name" (.VStr "") then
      some "suicide"
    else if containsKey e "weapon" = true ∧ pyTruthy (pyGetD e "weapon" (.VStr "")) = false ∧
        k = v then
      some "suicide"
    else if containsKey e "weapon" = true ∧
        (suicideKeywords.any
          (fun kw => strContains (pyLower (pyStr (pyGetD e "weapon" (.VStr "")))) kw)) = true then
      some "suicide"
    else some "kill"
  else if containsKey e "player_id" = true ∧ containsKey e "action" = true then
    some "connection"
  else some "unknown"

/-- Lines 348–353 of `categorize_event`: the post-April exact-weapon check;
`none` models the `AttributeError` raised by `.lower()` when the present
weapon value is not a string. -/
def categorize_weapon (e : Event) : Option String :=
  if containsKey e "weapon" = true then
    match pyGetD e "weapon" (.VStr "") with
    | .VStr w =>
      if pyLower w ∈ ["suicide_by_relocation", "suicide", "suicide_fall"] then some "suicide"
      else categorize_kv e
    | _ => none
  else categorize_kv e

/-- `categorize_event`: a pre-set `event_type` in the known lists is mapped
first (first match wins, fall-through otherwise), then the weapon check,
then the killer/victim block. -/
def categorize_event (e : Event) : Option String :=
  if containsKey e "event_type" = true ∧ pyGet e "event_type" = .VStr "kill" then some "kill"
  else if containsKey e "event_type" = true ∧ pyGet e "event_type" = .VStr "suicide" then
    some "suicide"
  else if containsKey e "event_type" = true ∧
      pyGet e "event_type" ∈ [Value.VStr "register", .VStr "unregister", .VStr "join", .VStr "kick"] then
    some "connection"
  else if containsKey e "event_type" = true ∧ pyGet e "event_type" = .VStr "mission" then
    some "mission"
  else if containsKey e "event_type" = true ∧
      pyGet e "event_type" ∈ [Value.VStr "airdrop", .VStr "helicrash", .VStr "trader", .VStr "convoy"] then
    some "game_event"
  else categorize_weapon e

/-- Concrete input refuting C2: no pre-set event type, distinct non-empty
IDs, and a weapon containing the keyword `fall`. -/
def c2ex : Event :=
  [("killer_id", Value.VStr "a"), ("victim_id", Value.VStr "b"),
   ("weapon", Value.VStr "fall")]

/-- Concrete input refuting C4: names match, IDs differ, but the weapon is
not a suicide indicator. -/
def c4ex : Event :=
  [("timestamp", Value.VDt dt0), ("killer_id", Value.VStr "a"),
   ("victim_id", Value.VStr "b"), ("killer_name", Value.VStr "X"),
   ("victim_name", Value.VStr "X"), ("weapon", Value.VStr "AK")]

/-- Concrete input witnessing the amended C4: a suicide-indicator weapon with
matching names and differing IDs. -/
def c4wex : Event :=
  [("timestamp", Value.VDt dt0), ("killer_id", Value.VStr "a"),
   ("victim_id", Value.VStr "b"), ("killer_name", Value.VStr "X"),
   ("victim_name", Value.VStr "X"), ("weapon", Value.VStr "suicide")]

/-- Concrete input for C5: both console keys present and null. -/
def c5ex1 : Event :=
  [("timestamp", Value.VDt dt0), ("killer_id", Value.VStr "a"),
   ("victim_id", Value.VStr "b"), ("killer_console", Value.VNone),
   ("victim_console", Value.VNone)]

/-- Concrete input for C5: neither console key present. -/
def c5ex2 : Event :=
  [("timestamp", Value.VDt dt0), ("killer_id", Value.VStr "a"),
   ("victim_id", Value.VStr "b")]

theorem lookupAssoc_setAssoc_self {κ α : Type} [DecidableEq κ] (l : List (κ × α)) (k : κ) (v : α) :
    lookupAssoc (setAssoc l k v) k = some v := by
  induction l with
  | nil => simp [setAssoc, lookupAssoc]
  | cons p rest ih =>
    obtain ⟨k', w⟩ := p
    by_cases h : k' = k
    · simp [setAssoc, lookupAssoc, h]
    · simp [setAssoc, lookupAssoc, h, ih]

theorem lookupAssoc_setAssoc_ne {κ α : Type} [DecidableEq κ] (l : List (κ × α)) (k k' : κ) (v : α)
    (h : k' ≠ k) : lookupAssoc (setAssoc l k v) k' = lookupAssoc l k' := by
  have hkk : ¬ k = k' := fun hh => h hh.symm
  induction l with
  | nil =>
    simp only [setAssoc, lookupAssoc]
    rw [if_neg hkk]
  | cons p rest ih =>
    obtain ⟨k0, w⟩ := p
    simp only [setAssoc]
    by_cases h0 : k0 = k
    · subst h0
      rw [if_pos rfl]
      simp only [lookupAssoc]
      rw [if_neg hkk, if_neg hkk]
    · rw [if_neg h0]
      simp only [lookupAssoc]
      by_cases h1 : k0 = k'
      · rw [if_pos h1, if_pos h1]
      · rw [if_neg h1, if_neg h1, ih]

theorem lookupAssoc_setAssoc {κ α : Type} [DecidableEq κ] (l : List (κ × α)) (k k' : κ) (v : α) :
    lookupAssoc (setAssoc l k v) k' = if k' = k then some v else lookupAssoc l k' := by
  by_cases h : k' = k
  · subst h
    rw [if_pos rfl, lookupAssoc_setAssoc_self]
  · rw [if_neg h, lookupAssoc_setAssoc_ne _ _ _ _ h]

@[simp] theorem pyGet_setKey (e : Event) (k k' : String) (v : Value) :
    pyGet (setKey e k v) k' = if k' = k then v else pyGet e k' := by
  simp only [pyGet, setKey, lookupAssoc_setAssoc]
  by_cases h : k' = k <;> simp [h]

@[simp] theorem pyGetD_setKey (e : Event) (k k' : String) (v d : Value) :
    pyGetD (setKey e k v) k' d = if k' = k then v else pyGetD e k' d := by
  simp only [pyGetD, setKey, lookupAssoc_setAssoc]
  by_cases h : k' = k <;> simp [h]

@[simp] theorem containsKey_setKey (e : Event) (k k' : String) (v : Value) :
    containsKey (setKey e k v) k' = if k' = k then true else containsKey e k' := by
  simp only [containsKey, setKey, lookupAssoc_setAssoc]
  by_cases h : k' = k <;> simp [h]

theorem pyGet_of_lookup (e : Event) (k : String) (v : Value)
    (h : lookupAssoc e k = some v) : pyGet e k = v := by
  simp [pyGet, h]

theorem pyGetD_of_lookup (e : Event) (k : String) (v d : Value)
    (h : lookupAssoc e k = some v) : pyGetD e k d = v := by
  simp [pyGetD, h]

theorem containsKey_of_lookup (e : Event) (k : String) (v : Value)
    (h : lookupAssoc e k = some v) : containsKey e k = true := by
  simp [containsKey, h]

theorem prune_noop (enum : List String → List String) (l : List String)
    (hl : l.length ≤ 10000) : prune_old_hashes enum l = l := by
  unfold prune_old_hashes
  rw [if_neg (by omega)]

theorem prune_length (enum : List String → List String) (l : List String)
    (hperm : (enum l).Perm l) (hl : l.length = 10001) :
    (prune_old_hashes enum l).length = 1000 := by
  have hel : (enum l).length = 10001 := by
    rw [hperm.length_eq, hl]
  unfold prune_old_hashes
  rw [if_pos (by omega), if_pos (by omega)]
  rw [List.length_drop, hel]

theorem not_mem_drop_succ_cons (a : String) (l : List String) (n : Nat) (hn : a ∉ l) :
    a ∉ (a :: l).drop (n + 1) := by
  intro hmem
  rw [List.drop_succ_cons] at hmem
  exact hn (List.mem_of_mem_drop hmem)

theorem is_duplicate_event_of_mem (enum : List String → List String) (s : CoordState)
    (e : Event) (h : generate_event_hash e ∈ s.processed_event_hashes) :
    is_duplicate_event enum s e = (true, s) := by
  unfold is_duplicate_event
  rw [if_pos h]

theorem is_duplicate_event_of_not_mem (enum : List String → List String) (s : CoordState)
    (e : Event) (h : generate_event_hash e ∉ s.processed_event_hashes) :
    is_duplicate_event enum s e =
      (false, { s with processed_event_hashes :=
          prune_old_hashes enum (s.processed_event_hashes ++ [generate_event_hash e]) }) := by
  unfold is_duplicate_event
  rw [if_neg h]

theorem strApp_data (a b : String) : (a ++ b).data = a.data ++ b.data := by
  cases a
  cases b
  rfl

theorem genHash_mkEv (i : Nat) :
    generate_event_hash (mkEv i) = "" ++ "_" ++ aStr i ++ "_" ++ "" ++ "_" ++ "" := rfl

theorem genHash_mkEv_len (i : Nat) :
    (generate_event_hash (mkEv i)).length = i + 3 := by
  rw [genHash_mkEv]
  show ("" ++ "_" ++ aStr i ++ "_" ++ "" ++ "_" ++ "").data.length = i + 3
  simp only [strApp_data, List.length_append]
  simp [aStr]
  omega

theorem genHash_mkEv_injective : Function.Injective (fun i => generate_event_hash (mkEv i)) := by
  intro i j hij
  have : (generate_event_hash (mkEv i)).length = (generate_event_hash (mkEv j)).length := by
    simp only at hij
    rw [hij]
  rw [genHash_mkEv_len, genHash_mkEv_len] at this
  omega

theorem nodup_demo :
    (((List.range 10000).map mkEv ++ [mkEv 10000]).map generate_event_hash).Nodup := by
  have h1 : (List.range 10000).map mkEv ++ [mkEv 10000] =
      (List.range 10000 ++ [10000]).map mkEv := by
    rw [List.map_append]
    rfl
  have h2 : (List.range 10000 ++ [10000]).Nodup := by
    refine List.Nodup.append (List.nodup_range _) (List.nodup_singleton _) ?_
    intro a ha hb
    simp only [List.mem_singleton] at hb
    subst hb
    simp [List.mem_range] at ha
  rw [h1, List.map_map]
  exact List.Nodup.map genHash_mkEv_injective h2

theorem fresh_10000 :
    generate_event_hash (mkEv 10000) ∉
      (List.range 10000).map (generate_event_hash ∘ mkEv) := by
  intro hmem
  rw [List.mem_map] at hmem
  obtain ⟨i, hi, heq⟩ := hmem
  have hij := genHash_mkEv_injective heq
  rw [List.mem_range] at hi
  omega

theorem processList_fresh (enum : List String → List String) (es : List Event) :
    ∀ (s : CoordState),
    (s.processed_event_hashes ++ es.map generate_event_hash).Nodup →
    s.processed_event_hashes.length + es.length ≤ 10000 →
    processList enum s es =
      { s with processed_event_hashes :=
          s.processed_event_hashes ++ es.map generate_event_hash } := by
  induction es with
  | nil =>
    intro s _ _
    simp [processList]
  | cons e es ih =>
    intro s hnd hlen
    have hlen1 : s.processed_event_hashes.length + es.length + 1 ≤ 10000 := by
      simp only [List.length_cons] at hlen
      omega
    have hmm : generate_event_hash e ∉ s.processed_event_hashes := by
      intro hmem
      have hd := (List.nodup_append.mp (by simpa using hnd)).2.2
      exact hd hmem (List.mem_cons_self _ _)
    have hstep : processList enum s (e :: es) =
        processList enum (is_duplicate_event enum s e).2 es := by
      simp [processList]
    have hs2 : (is_duplicate_event enum s e).2 =
        { s with processed_event_hashes :=
            s.processed_event_hashes ++ [generate_event_hash e] } := by
      rw [is_duplicate_event_of_not_mem enum s e hmm]
      have : (s.processed_event_hashes ++ [generate_event_hash e]).length ≤ 10000 := by
        simp only [List.length_append, List.length_singleton]
        omega
      rw [prune_noop _ _ this]
    rw [hstep, hs2, ih]
    · simp
    · simpa using hnd
    · simp only [List.length_append, List.length_singleton]
      omega

/-- The adversarial run shared by the C1 and C3 counterexamples: inserting a
fresh fingerprint into the 10,000-entry state `s10k` triggers the prune, and
under the reversed set enumeration (admissible, since CPython's iteration
order is unspecified) the call returns `false`, keeps 1,000 fingerprints,
and evicts the one just inserted. -/
theorem s10k_processed : s10k.processed_event_hashes =
    (List.range 10000).map (generate_event_hash ∘ mkEv) := by
  simp [s10k]

theorem evict_general (s : CoordState) (e : Event)
    (hfresh : generate_event_hash e ∉ s.processed_event_hashes)
    (hlen : s.processed_event_hashes.length = 10000) :
    (is_duplicate_event List.reverse s e).1 = false ∧
    (is_duplicate_event List.reverse s e).2.processed_event_hashes.length = 1000 ∧
    generate_event_hash e ∉
      (is_duplicate_event List.reverse s e).2.processed_event_hashes := by
  have hlen1 : (s.processed_event_hashes ++ [generate_event_hash e]).length = 10001 := by
    rw [List.length_append, hlen]
    rfl
  rw [is_duplicate_event_of_not_mem List.reverse s e hfresh]
  refine ⟨rfl, ?_, ?_⟩
  · show (prune_old_hashes List.reverse
        (s.processed_event_hashes ++ [generate_event_hash e])).length = 1000
    exact prune_length _ _ (List.reverse_perm _) hlen1
  · show generate_event_hash e ∉
      prune_old_hashes List.reverse (s.processed_event_hashes ++ [generate_event_hash e])
    unfold prune_old_hashes
    rw [if_pos (by omega), if_pos (by omega)]
    have hlenrev :
        (List.reverse (s.processed_event_hashes ++ [generate_event_hash e])).length = 10001 := by
      rw [List.length_reverse]
      exact hlen1
    have hrev :
        (s.processed_event_hashes ++ [generate_event_hash e]).reverse =
          generate_event_hash e :: s.processed_event_hashes.reverse := by
      rw [List.reverse_append]
      rfl
    rw [hlenrev, hrev]
    have hnrev : generate_event_hash e ∉ s.processed_event_hashes.reverse := by
      rw [List.mem_reverse]
      exact hfresh
    exact not_mem_drop_succ_cons _ _ 9000 hnrev

theorem evict_reverse :
    (is_duplicate_event List.reverse s10k (mkEv 10000)).1 = false ∧
    (is_duplicate_event List.reverse s10k (mkEv 10000)).2.processed_event_hashes.length = 1000 ∧
    generate_event_hash (mkEv 10000) ∉
      (is_duplicate_event List.reverse s10k (mkEv 10000)).2.processed_event_hashes :=
  evict_general s10k (mkEv 10000)
    (by rw [s10k_processed]; exact fresh_10000)
    (by rw [s10k_processed]; simp)

theorem nodup_front : (((List.range 10000).map mkEv).map generate_event_hash).Nodup := by
  have hw := nodup_demo
  rw [List.map_append] at hw
  exact hw.of_append_left

theorem s10k_build :
    CoordState.mk initState.last_processed_csv_timestamps
      initState.last_processed_log_timestamps
      (initState.processed_event_hashes ++
        ((List.range 10000).map mkEv).map generate_event_hash)
      initState.recent_event_window = s10k := by
  simp [s10k, initState]

theorem processList_s10k :
    processList List.reverse initState ((List.range 10000).map mkEv) = s10k :=
  (processList_fresh List.reverse ((List.range 10000).map mkEv) initState
    (by simpa [initState] using nodup_front) (by simp [initState])).trans s10k_build

theorem processList_snoc (enum : List String → List String) (s : CoordState)
    (es : List Event) (e : Event) :
    processList enum s (es ++ [e]) = (is_duplicate_event enum (processList enum s es) e).2 := by
  simp [processList]

theorem processList_step :
    processList List.reverse initState ((List.range 10000).map mkEv ++ [mkEv 10000]) =
      (is_duplicate_event List.reverse s10k (mkEv 10000)).2 :=
  (processList_snoc List.reverse initState ((List.range 10000).map mkEv) (mkEv 10000)).trans
    (congrArg (fun s => (is_duplicate_event List.reverse s (mkEv 10000)).2) processList_s10k)

/-- C1 (amended): for every set-enumeration order, every event e and every
coordinator state whose fingerprint set does not already contain e's
fingerprint and holds fewer than 10,000 entries — so the insertion does not
trigger the prune — two successive calls of `is_duplicate_event` return
`false` then `true`, and the returning-`false` call leaves the fingerprint
inserted; in every state, a call returning `true` leaves the whole
coordinator state (in particular the fingerprint set) unchanged. -/
theorem c1_amended :
    (∀ (enum : List String → List String) (s : CoordState) (e : Event),
        generate_event_hash e ∉ s.processed_event_hashes →
        s.processed_event_hashes.length < 10000 →
        (is_duplicate_event enum s e).1 = false ∧
          (is_duplicate_event enum (is_duplicate_event enum s e).2 e).1 = true) ∧
    (∀ (enum : List String → List String) (s : CoordState) (e : Event),
        (is_duplicate_event enum s e).1 = true → (is_duplicate_event enum s e).2 = s) ∧
    (∀ (enum : List String → List String) (s : CoordState) (e : Event),
        s.processed_event_hashes.length < 10000 →
        (is_duplicate_event enum s e).1 = false →
        generate_event_hash e ∈ (is_duplicate_event enum s e).2.processed_event_hashes) := by
  refine ⟨?_, ?_, ?_⟩
  · intro enum s e hnm hlen
    rw [is_duplicate_event_of_not_mem enum s e hnm]
    have hpn : prune_old_hashes enum (s.processed_event_hashes ++ [generate_event_hash e]) =
        s.processed_event_hashes ++ [generate_event_hash e] := by
      apply prune_noop
      simp only [List.length_append, List.length_singleton]
      omega
    rw [hpn]
    exact ⟨rfl, by rw [is_duplicate_event_of_mem enum _ e (by simp)]⟩
  · intro enum s e ht
    by_cases hm : generate_event_hash e ∈ s.processed_event_hashes
    · rw [is_duplicate_event_of_mem enum s e hm]
    · rw [is_duplicate_event_of_not_mem enum s e hm] at ht
      exact absurd ht (by simp)
  · intro enum s e hlen hf
    by_cases hm : generate_event_hash e ∈ s.processed_event_hashes
    · rw [is_duplicate_event_of_mem enum s e hm] at hf
      exact absurd hf (by simp)
    · rw [is_duplicate_event_of_not_mem enum s e hm]
      show generate_event_hash e ∈
        prune_old_hashes enum (s.processed_event_hashes ++ [generate_event_hash e])
      rw [prune_noop enum _ (by simp only [List.length_append, List.length_singleton]; omega)]
      simp

/-- C1 (counterexample): two failure modes of the claim as stated.  In a
state already containing the fingerprint the first call returns `true`, not
`false`; and in a 10,000-entry state the insertion triggers the prune, which
under the reversed set enumeration returns `false` while evicting the fresh
fingerprint — so `(false, false)` with a dropped fingerprint is a possible
behaviour of the program. -/
theorem c1_counterexample :
    (is_duplicate_event id c1st c1ev).1 = true ∧
    ((is_duplicate_event List.reverse s10k (mkEv 10000)).1 = false ∧
      generate_event_hash (mkEv 10000) ∉
        (is_duplicate_event List.reverse s10k (mkEv 10000)).2.processed_event_hashes) :=
  ⟨by decide, evict_reverse.1, evict_reverse.2.2⟩

/-- C1 (witness): the amended statement instantiated at concrete inputs
(insertion-order enumeration, empty and one-element fingerprint sets). -/
theorem c1_witness :
    ((is_duplicate_event id initState c1ev).1 = false ∧
      (is_duplicate_event id (is_duplicate_event id initState c1ev).2 c1ev).1 = true) ∧
    (is_duplicate_event id c1st c1ev).2 = c1st ∧
    generate_event_hash c1ev ∈ (is_duplicate_event id initState c1ev).2.processed_event_hashes :=
  ⟨c1_amended.1 id initState c1ev (by simp [initState]) (by decide),
   c1_amended.2.1 id c1st c1ev (by decide),
   c1_amended.2.2 id initState c1ev (by decide) (by decide)⟩

/-- C3 (amended): for every admissible enumeration of the fingerprint set,
feeding 10,001 events with pairwise-distinct fingerprints through
`is_duplicate_event` from the empty coordinator leaves the retained set with
exactly 1,000 entries immediately after the prune.  Which 1,000 survive — in
particular whether the 10,001st fingerprint does — depends on the
unspecified enumeration order. -/
theorem c3_amended (enum : List String → List String) (hperm : ∀ l, (enum l).Perm l)
    (es : List Event) (e : Event)
    (hlen : es.length = 10000)
    (hnd : ((es ++ [e]).map generate_event_hash).Nodup) :
    (processList enum initState (es ++ [e])).processed_event_hashes.length = 1000 := by
  have hmap : (es ++ [e]).map generate_event_hash =
      es.map generate_event_hash ++ [generate_event_hash e] := by simp
  rw [hmap] at hnd
  have hnd1 : (es.map generate_event_hash).Nodup := hnd.of_append_left
  have hnm : generate_event_hash e ∉ es.map generate_event_hash := by
    intro hmem
    exact (List.nodup_append.mp hnd).2.2 hmem (List.mem_cons_self _ _)
  have h1 : processList enum initState es =
      { initState with processed_event_hashes := es.map generate_event_hash } := by
    have := processList_fresh enum es initState (by simpa [initState] using hnd1)
      (by simp [initState, hlen])
    simpa [initState] using this
  have h2 : processList enum initState (es ++ [e]) =
      (is_duplicate_event enum (processList enum initState es) e).2 := by
    simp [processList]
  rw [h2, h1, is_duplicate_event_of_not_mem _ _ e (by simpa using hnm)]
  show (prune_old_hashes enum
      (es.map generate_event_hash ++ [generate_event_hash e])).length = 1000
  exact prune_length enum _ (hperm _) (by simp [hlen])

/-- C3 (counterexample): under the reversed enumeration — an admissible set
iteration order, since CPython specifies none — processing the same 10,001
pairwise-distinct events from the empty coordinator leaves 1,000 retained
fingerprints, but the most recently inserted (10,001st) fingerprint is not
among them, refuting the claimed membership. -/
theorem c3_counterexample :
    (processList List.reverse initState
        ((List.range 10000).map mkEv ++ [mkEv 10000])).processed_event_hashes.length = 1000 ∧
    generate_event_hash (mkEv 10000) ∉
      (processList List.reverse initState
        ((List.range 10000).map mkEv ++ [mkEv 10000])).processed_event_hashes :=
  ⟨(congrArg (fun s => s.processed_event_hashes.length) processList_step).trans
      evict_reverse.2.1,
   fun hx => evict_reverse.2.2 (Eq.mp
      (congrArg (fun s => generate_event_hash (mkEv 10000) ∈ s.processed_event_hashes)
        processList_step) hx)⟩

/-- C3 (witness): the amended statement instantiated with the
insertion-order enumeration and a concrete family of 10,001 events with
pairwise-distinct fingerprints. -/
theorem c3_witness :
    (processList id initState
        ((List.range 10000).map mkEv ++ [mkEv 10000])).processed_event_hashes.length = 1000 :=
  c3_amended id (fun l => List.Perm.refl l) _ _ (by simp) nodup_demo

/-- C6: for kill/suicide events (both ID keys present), the fingerprint is a
function of exactly the four fields `timestamp`, `killer_id`, `victim_id`
and `weapon` as read by `event.get(..., "")`: two events agreeing on those
four reads get the same fingerprint, whatever their other fields. -/
theorem c6_fingerprint_stable (e₁ e₂ : Event)
    (hk₁ : containsKey e₁ "killer_id" = true) (hv₁ : containsKey e₁ "victim_id" = true)
    (hk₂ : containsKey e₂ "killer_id" = true) (hv₂ : containsKey e₂ "victim_id" = true)
    (ht : pyGetD e₁ "timestamp" (.VStr "") = pyGetD e₂ "timestamp" (.VStr ""))
    (hk : pyGetD e₁ "killer_id" (.VStr "") = pyGetD e₂ "killer_id" (.VStr ""))
    (hv : pyGetD e₁ "victim_id" (.VStr "") = pyGetD e₂ "victim_id" (.VStr ""))
    (hw : pyGetD e₁ "weapon" (.VStr "") = pyGetD e₂ "weapon" (.VStr "")) :
    generate_event_hash e₁ = generate_event_hash e₂ := by
  unfold generate_event_hash hashTs
  rw [if_pos ⟨hk₁, hv₁⟩, if_pos ⟨hk₂, hv₂⟩, ht, hk, hv, hw]

/-- C6 (witness): two concrete events that differ in an irrelevant extra
field but agree on the four identity fields share a fingerprint. -/
theorem c6_witness :
    generate_event_hash
        [("timestamp", Value.VStr "t"), ("killer_id", Value.VStr "a"),
         ("victim_id", Value.VStr "b"), ("weapon", Value.VStr "ak"),
         ("line_no", Value.VInt 7)] =
      generate_event_hash
        [("killer_id", Value.VStr "a"), ("victim_id", Value.VStr "b"),
         ("weapon", Value.VStr "ak"), ("timestamp", Value.VStr "t")] :=
  c6_fingerprint_stable _ _ (by decide) (by decide) (by decide) (by decide)
    (by decide) (by decide) (by decide) (by decide)

/-- C7: for every set-enumeration order, the boolean returned by
`is_duplicate_event` depends only on the membership of the event's
fingerprint in the fingerprint set — two states whose sets have the same
members give the same answer for every event — and no call modifies (or
depends on) either cursor map. -/
theorem c7_cursor_independence :
    (∀ (enum : List String → List String) (s₁ s₂ : CoordState) (e : Event),
        (∀ h, h ∈ s₁.processed_event_hashes ↔ h ∈ s₂.processed_event_hashes) →
        (is_duplicate_event enum s₁ e).1 = (is_duplicate_event enum s₂ e).1) ∧
    (∀ (enum : List String → List String) (s : CoordState) (e : Event),
        (is_duplicate_event enum s e).2.last_processed_csv_timestamps =
            s.last_processed_csv_timestamps ∧
        (is_duplicate_event enum s e).2.last_processed_log_timestamps =
            s.last_processed_log_timestamps) := by
  constructor
  · intro enum s₁ s₂ e hmem
    unfold is_duplicate_event
    by_cases h : generate_event_hash e ∈ s₁.processed_event_hashes
    · rw [if_pos h, if_pos ((hmem _).mp h)]
    · rw [if_neg h, if_neg (fun hc => h ((hmem _).mpr hc))]
  · intro enum s e
    unfold is_duplicate_event
    by_cases h : generate_event_hash e ∈ s.processed_event_hashes
    · rw [if_pos h]
      exact ⟨rfl, rfl⟩
    · rw [if_neg h]
      exact ⟨rfl, rfl⟩

/-- C7 (witness): two concrete states with the same fingerprint set but
different cursor maps answer identically, and a concrete call leaves both
cursor maps of a state with nonempty cursors unchanged. -/
theorem c7_witness :
    (is_duplicate_event id ⟨[], [], ["x"], 3600⟩ c1ev).1 =
        (is_duplicate_event id ⟨[("s1", dt0)], [("s2", dt0)], ["x"], 0⟩ c1ev).1 ∧
    ((is_duplicate_event id ⟨[("s1", dt0)], [("s2", dt0)], ["x"], 0⟩ c1ev).2.last_processed_csv_timestamps =
        [("s1", dt0)] ∧
      (is_duplicate_event id ⟨[("s1", dt0)], [("s2", dt0)], ["x"], 0⟩ c1ev).2.last_processed_log_timestamps =
        [("s2", dt0)]) :=
  ⟨c7_cursor_independence.1 id _ _ c1ev (fun _ => Iff.rfl),
   c7_cursor_independence.2 id ⟨[("s1", dt0)], [("s2", dt0)], ["x"], 0⟩ c1ev⟩

theorem step_timestamp_get (now : Datetime) (d : Event) (k : String) (h : k ≠ "timestamp") :
    pyGet (step_timestamp now d) k = pyGet d k := by
  unfold step_timestamp
  repeat' split
  all_goals simp [h]

theorem step_timestamp_contains (now : Datetime) (d : Event) (k : String) (h : k ≠ "timestamp") :
    containsKey (step_timestamp now d) k = containsKey d k := by
  unfold step_timestamp
  repeat' split
  all_goals simp [h]

theorem step_killer_none_get (d : Event) (k : String) (h : k ≠ "killer_id") :
    pyGet (step_killer_none d) k = pyGet d k := by
  unfold step_killer_none
  repeat' split
  all_goals simp [h]

theorem step_killer_none_contains (d : Event) (k : String) :
    containsKey (step_killer_none d) k = containsKey d k := by
  unfold step_killer_none
  split
  next hcond =>
    by_cases hk : k = "killer_id"
    · subst hk
      simp [hcond.1]
    · simp [hk]
  next => rfl

theorem step_consoles_get (d : Event) (k : String)
    (h1 : k ≠ "killer_console") (h2 : k ≠ "victim_console") :
    pyGet (step_consoles d) k = pyGet d k := by
  unfold step_consoles
  repeat' split
  all_goals simp [h1, h2]

theorem step_consoles_contains (d : Event) (k : String)
    (h1 : k ≠ "killer_console") (h2 : k ≠ "victim_console") :
    containsKey (step_consoles d) k = containsKey d k := by
  unfold step_consoles
  repeat' split
  all_goals simp [h1, h2]

theorem step_classify_get (d : Event) (k : String)
    (h1 : k ≠ "event_type") (h2 : k ≠ "killer_id") :
    pyGet (step_classify d) k = pyGet d k := by
  unfold step_classify
  repeat' split
  all_goals simp [h1, h2]

theorem step_kill_block_get (d : Event) (k : String)
    (h1 : k ≠ "killer_console") (h2 : k ≠ "victim_console")
    (h3 : k ≠ "event_type") (h4 : k ≠ "killer_id") :
    pyGet (step_kill_block d) k = pyGet d k := by
  unfold step_kill_block
  split
  · rw [step_classify_get _ _ h3 h4, step_consoles_get _ _ h1 h2]
  · rfl

theorem step_victim_none_get (d : Event) (k : String) (h : k ≠ "victim_id") :
    pyGet (step_victim_none d) k = pyGet d k := by
  unfold step_victim_none
  repeat' split
  all_goals simp [h]

theorem step_player_none_get (d : Event) (k : String) (h : k ≠ "player_id") :
    pyGet (step_player_none d) k = pyGet d k := by
  unfold step_player_none
  repeat' split
  all_goals simp [h]

theorem step_strings_get (d : Event) (k : String)
    (h1 : k ≠ "killer_name") (h2 : k ≠ "victim_name") (h3 : k ≠ "player_name")
    (h4 : k ≠ "weapon") (h5 : k ≠ "location") :
    pyGet (step_strings d) k = pyGet d k := by
  unfold step_strings
  simp only [List.foldl_cons, List.foldl_nil]
  repeat' split
  all_goals simp [h1, h2, h3, h4, h5]

theorem step_distance_get (d : Event) (k : String) (h : k ≠ "distance") :
    pyGet (step_distance d) k = pyGet d k := by
  unfold step_distance
  split
  all_goals dsimp only
  · split
    · split <;> simp [h]
    · simp [h]
  · split
    · split <;> simp [h]
    · rfl

/-- The four steps after the kill block leave every key outside their write
set untouched. -/
theorem tail_steps_get (d : Event) (k : String)
    (h1 : k ≠ "victim_id") (h2 : k ≠ "player_id") (h3 : k ≠ "killer_name")
    (h4 : k ≠ "victim_name") (h5 : k ≠ "player_name") (h6 : k ≠ "weapon")
    (h7 : k ≠ "location") (h8 : k ≠ "distance") :
    pyGet (step_distance (step_strings (step_player_none (step_victim_none d)))) k =
      pyGet d k := by
  rw [step_distance_get _ _ h8, step_strings_get _ _ h3 h4 h5 h6 h7,
    step_player_none_get _ _ h2, step_victim_none_get _ _ h1]

/-- The normalized timestamp is decided entirely by the timestamp step. -/
theorem normalize_timestamp_eq (e : Event) (now : Datetime) :
    pyGet (normalize_event_data e now) "timestamp" =
      pyGet (step_timestamp now e) "timestamp" := by
  unfold normalize_event_data normalizeSteps pyDictCopy
  rw [tail_steps_get _ _ (by decide) (by decide) (by decide) (by decide) (by decide)
      (by decide) (by decide) (by decide),
    step_kill_block_get _ _ (by decide) (by decide) (by decide) (by decide),
    step_killer_none_get _ _ (by decide)]

/-- C8: `normalize_event_data` parses a string timestamp by attempting
`fromisoformat` first and only then the four `strptime` formats in order
(`tryFormats`), falling back to the current time; the two concrete inputs of
the claim normalize to the same instant, and `"not-a-date"` never raises and
yields the concrete current-time timestamp. -/
theorem c8_timestamp_parsing :
    (∀ (e : Event) (s : String) (d now : Datetime),
        lookupAssoc e "timestamp" = some (.VStr s) →
        pyFromIso s = some d →
        pyGet (normalize_event_data e now) "timestamp" = .VDt d) ∧
    (∀ (e : Event) (s : String) (d now : Datetime),
        lookupAssoc e "timestamp" = some (.VStr s) →
        pyFromIso s = none →
        tryFormats s = some d →
        pyGet (normalize_event_data e now) "timestamp" = .VDt d) ∧
    (∀ (e : Event) (s : String) (now : Datetime),
        lookupAssoc e "timestamp" = some (.VStr s) →
        pyFromIso s = none →
        tryFormats s = none →
        pyGet (normalize_event_data e now) "timestamp" = .VDt now) ∧
    (∀ now : Datetime,
        pyGet (normalize_event_data [("timestamp", .VStr "2024.03.15-14.30.00")] now) "timestamp" =
          pyGet (normalize_event_data [("timestamp", .VStr "2024-03-15 14:30:00")] now) "timestamp" ∧
        pyGet (normalize_event_data [("timestamp", .VStr "2024.03.15-14.30.00")] now) "timestamp" =
          .VDt ⟨2024, 3, 15, 14, 30, 0, 0⟩) ∧
    (∀ now : Datetime,
        pyGet (normalize_event_data [("timestamp", .VStr "not-a-date")] now) "timestamp" =
          .VDt now) := by
  have hpart1 : ∀ (e : Event) (s : String) (d now : Datetime),
      lookupAssoc e "timestamp" = some (.VStr s) → pyFromIso s = some d →
      pyGet (normalize_event_data e now) "timestamp" = .VDt d := by
    intro e s d now hlk hiso
    rw [normalize_timestamp_eq]
    unfold step_timestamp
    rw [if_pos (containsKey_of_lookup _ _ _ hlk), pyGet_of_lookup _ _ _ hlk]
    simp [hiso]
  have hpart2 : ∀ (e : Event) (s : String) (d now : Datetime),
      lookupAssoc e "timestamp" = some (.VStr s) → pyFromIso s = none →
      tryFormats s = some d →
      pyGet (normalize_event_data e now) "timestamp" = .VDt d := by
    intro e s d now hlk hiso hfmt
    rw [normalize_timestamp_eq]
    unfold step_timestamp
    rw [if_pos (containsKey_of_lookup _ _ _ hlk), pyGet_of_lookup _ _ _ hlk]
    simp [hiso, hfmt]
  have hpart3 : ∀ (e : Event) (s : String) (now : Datetime),
      lookupAssoc e "timestamp" = some (.VStr s) → pyFromIso s = none →
      tryFormats s = none →
      pyGet (normalize_event_data e now) "timestamp" = .VDt now := by
    intro e s now hlk hiso hfmt
    rw [normalize_timestamp_eq]
    unfold step_timestamp
    rw [if_pos (containsKey_of_lookup _ _ _ hlk), pyGet_of_lookup _ _ _ hlk]
    simp [hiso, hfmt]
  refine ⟨hpart1, hpart2, hpart3, ?_, ?_⟩
  · intro now
    constructor
    · rw [hpart2 [("timestamp", .VStr "2024.03.15-14.30.00")] "2024.03.15-14.30.00"
          ⟨2024, 3, 15, 14, 30, 0, 0⟩ now rfl (by decide) (by decide),
        hpart1 [("timestamp", .VStr "2024-03-15 14:30:00")] "2024-03-15 14:30:00"
          ⟨2024, 3, 15, 14, 30, 0, 0⟩ now rfl (by decide)]
    · exact hpart2 [("timestamp", .VStr "2024.03.15-14.30.00")] "2024.03.15-14.30.00"
        ⟨2024, 3, 15, 14, 30, 0, 0⟩ now rfl (by decide) (by decide)
  · intro now
    exact hpart3 [("timestamp", .VStr "not-a-date")] "not-a-date" now rfl
      (by decide) (by decide)

/-- C4 (amended): the name-match suicide repair fires only inside the branch
where the weapon is exactly `suicide_by_relocation` or `suicide`: for every
record with both ID keys present, a non-null `killer_id` different from
`victim_id`, such a weapon, and matching names, `normalize_event_data` tags
`suicide` and overwrites `killer_id` with the value of `victim_id`. -/
theorem c4_amended (e : Event) (now : Datetime) (kv vv : Value)
    (hkl : lookupAssoc e "killer_id" = some kv)
    (hvl : lookupAssoc e "victim_id" = some vv)
    (hkn : kv ≠ .VNone)
    (hne : kv ≠ vv)
    (hw : pyGet e "weapon" = .VStr "suicide_by_relocation" ∨ pyGet e "weapon" = .VStr "suicide")
    (hnm : pyGet e "killer_name" = pyGet e "victim_name") :
    pyGet (normalize_event_data e now) "event_type" = .VStr "suicide" ∧
    pyGet (normalize_event_data e now) "killer_id" = vv := by
  have hg1 : ∀ k, k ≠ "timestamp" → pyGet (step_timestamp now e) k = pyGet e k :=
    fun k hk => step_timestamp_get now e k hk
  have hc1 : ∀ k, k ≠ "timestamp" → containsKey (step_timestamp now e) k = containsKey e k :=
    fun k hk => step_timestamp_contains now e k hk
  have hkil1 : pyGet (step_timestamp now e) "killer_id" = kv := by
    rw [hg1 _ (by decide), pyGet_of_lookup _ _ _ hkl]
  have h2 : step_killer_none (step_timestamp now e) = step_timestamp now e := by
    unfold step_killer_none
    rw [if_neg]
    rintro ⟨-, hco⟩
    rw [hkil1] at hco
    exact hkn hco
  have hck : containsKey (step_timestamp now e) "killer_id" = true := by
    rw [hc1 _ (by decide)]
    exact containsKey_of_lookup _ _ _ hkl
  have hcv : containsKey (step_timestamp now e) "victim_id" = true := by
    rw [hc1 _ (by decide)]
    exact containsKey_of_lookup _ _ _ hvl
  have h3 : step_kill_block (step_timestamp now e) =
      step_classify (step_consoles (step_timestamp now e)) := by
    unfold step_kill_block
    rw [if_pos ⟨hck, hcv⟩]
  have hgc : ∀ k, k ≠ "killer_console" → k ≠ "victim_console" →
      pyGet (step_consoles (step_timestamp now e)) k = pyGet (step_timestamp now e) k :=
    fun k hk1 hk2 => step_consoles_get _ _ hk1 hk2
  have hwc : pyGet (step_consoles (step_timestamp now e)) "weapon" = pyGet e "weapon" := by
    rw [hgc _ (by decide) (by decide), hg1 _ (by decide)]
  have hkc : pyGet (step_consoles (step_timestamp now e)) "killer_id" = kv := by
    rw [hgc _ (by decide) (by decide), hkil1]
  have hvc : pyGet (step_consoles (step_timestamp now e)) "victim_id" = vv := by
    rw [hgc _ (by decide) (by decide), hg1 _ (by decide), pyGet_of_lookup _ _ _ hvl]
  have hnc : pyGet (step_consoles (step_timestamp now e)) "killer_name" =
      pyGet (step_consoles (step_timestamp now e)) "victim_name" := by
    rw [hgc _ (by decide) (by decide), hgc _ (by decide) (by decide),
      hg1 _ (by decide), hg1 _ (by decide), hnm]
  have h4 : step_classify (step_consoles (step_timestamp now e)) =
      setKey (setKey (step_consoles (step_timestamp now e)) "event_type" (.VStr "suicide"))
        "killer_id" vv := by
    unfold step_classify
    rw [if_pos (by rw [hwc]; exact hw),
      if_neg (by rw [hkc, hvc]; exact hne),
      if_pos hnc, hvc]
  have hfin : normalize_event_data e now =
      step_distance (step_strings (step_player_none (step_victim_none
        (setKey (setKey (step_consoles (step_timestamp now e)) "event_type" (.VStr "suicide"))
          "killer_id" vv)))) := by
    unfold normalize_event_data normalizeSteps pyDictCopy
    rw [h2, h3, h4]
  constructor
  · rw [hfin, tail_steps_get _ _ (by decide) (by decide) (by decide) (by decide)
      (by decide) (by decide) (by decide) (by decide)]
    simp
  · rw [hfin, tail_steps_get _ _ (by decide) (by decide) (by decide) (by decide)
      (by decide) (by decide) (by decide) (by decide)]
    simp

/-- C4 (counterexample): with a non-suicide weapon (`"AK"`) the name-match
repair does not fire — the event is tagged `kill` and `killer_id` is left
unchanged, although `c4ex` has matching names, differing IDs, and both ID
keys present. -/
theorem c4_counterexample :
    pyGet c4ex "killer_name" = pyGet c4ex "victim_name" ∧
    pyGet c4ex "killer_id" ≠ pyGet c4ex "victim_id" ∧
    pyGet (normalize_event_data c4ex dt0) "event_type" = .VStr "kill" ∧
    pyGet (normalize_event_data c4ex dt0) "killer_id" = .VStr "a" := by decide

/-- C4 (witness): the amended statement on a concrete record whose weapon is
exactly `suicide`. -/
theorem c4_witness :
    pyGet (normalize_event_data c4wex dt0) "event_type" = .VStr "suicide" ∧
    pyGet (normalize_event_data c4wex dt0) "killer_id" = .VStr "b" :=
  c4_amended c4wex dt0 (.VStr "a") (.VStr "b") (by decide) (by decide)
    (by decide) (by decide) (Or.inr (by decide)) (by decide)

/-- C5 (amended): with both console keys present and null, the `elif` chain
coerces only `killer_console` to `"Unknown"` and leaves `victim_console`
null; with neither console key present, both are synthesized as
`"Unknown"`. -/
theorem c5_amended :
    (∀ (e : Event) (now : Datetime),
        containsKey e "killer_id" = true → containsKey e "victim_id" = true →
        lookupAssoc e "killer_console" = some .VNone →
        lookupAssoc e "victim_console" = some .VNone →
        pyGet (normalize_event_data e now) "killer_console" = .VStr "Unknown" ∧
          pyGet (normalize_event_data e now) "victim_console" = .VNone) ∧
    (∀ (e : Event) (now : Datetime),
        containsKey e "killer_id" = true → containsKey e "victim_id" = true →
        containsKey e "killer_console" = false → containsKey e "victim_console" = false →
        pyGet (normalize_event_data e now) "killer_console" = .VStr "Unknown" ∧
          pyGet (normalize_event_data e now) "victim_console" = .VStr "Unknown") := by
  constructor
  · intro e now hck hcv hkcl hvcl
    have hg1 : ∀ k, k ≠ "timestamp" → pyGet (step_timestamp now e) k = pyGet e k :=
      fun k hk => step_timestamp_get now e k hk
    have hc1 : ∀ k, k ≠ "timestamp" → containsKey (step_timestamp now e) k = containsKey e k :=
      fun k hk => step_timestamp_contains now e k hk
    have hg2 : ∀ k, k ≠ "timestamp" → k ≠ "killer_id" →
        pyGet (step_killer_none (step_timestamp now e)) k = pyGet e k := by
      intro k h1 h2
      rw [step_killer_none_get _ _ h2, hg1 _ h1]
    have hc2 : ∀ k, k ≠ "timestamp" →
        containsKey (step_killer_none (step_timestamp now e)) k = containsKey e k := by
      intro k h1
      rw [step_killer_none_contains, hc1 _ h1]
    have hckB : containsKey (step_killer_none (step_timestamp now e)) "killer_id" = true := by
      rw [hc2 _ (by decide)]
      exact hck
    have hcvB : containsKey (step_killer_none (step_timestamp now e)) "victim_id" = true := by
      rw [hc2 _ (by decide)]
      exact hcv
    have h3 : step_kill_block (step_killer_none (step_timestamp now e)) =
        step_classify (step_consoles (step_killer_none (step_timestamp now e))) := by
      unfold step_kill_block
      rw [if_pos ⟨hckB, hcvB⟩]
    have hkcon : pyGet (step_killer_none (step_timestamp now e)) "killer_console" = .VNone := by
      rw [hg2 _ (by decide) (by decide), pyGet_of_lookup _ _ _ hkcl]
    have hvcon : pyGet (step_killer_none (step_timestamp now e)) "victim_console" = .VNone := by
      rw [hg2 _ (by decide) (by decide), pyGet_of_lookup _ _ _ hvcl]
    have hkconc : containsKey (step_killer_none (step_timestamp now e)) "killer_console" = true := by
      rw [hc2 _ (by decide)]
      exact containsKey_of_lookup _ _ _ hkcl
    have h4 : step_consoles (step_killer_none (step_timestamp now e)) =
        setKey (step_killer_none (step_timestamp now e)) "killer_console" (.VStr "Unknown") := by
      unfold step_consoles
      rw [if_neg, if_pos hkcon]
      rintro ⟨hf, -⟩
      rw [hkconc] at hf
      exact absurd hf (by decide)
    have hfin : normalize_event_data e now =
        step_distance (step_strings (step_player_none (step_victim_none
          (step_classify (setKey (step_killer_none (step_timestamp now e))
            "killer_console" (.VStr "Unknown")))))) := by
      unfold normalize_event_data normalizeSteps pyDictCopy
      rw [h3, h4]
    constructor
    · rw [hfin, tail_steps_get _ _ (by decide) (by decide) (by decide) (by decide)
        (by decide) (by decide) (by decide) (by decide),
        step_classify_get _ _ (by decide) (by decide)]
      simp
    · rw [hfin, tail_steps_get _ _ (by decide) (by decide) (by decide) (by decide)
        (by decide) (by decide) (by decide) (by decide),
        step_classify_get _ _ (by decide) (by decide)]
      simp [hvcon]
  · intro e now hck hcv hkc0 hvc0
    have hc1 : ∀ k, k ≠ "timestamp" → containsKey (step_timestamp now e) k = containsKey e k :=
      fun k hk => step_timestamp_contains now e k hk
    have hc2 : ∀ k, k ≠ "timestamp" →
        containsKey (step_killer_none (step_timestamp now e)) k = containsKey e k := by
      intro k h1
      rw [step_killer_none_contains, hc1 _ h1]
    have hckB : containsKey (step_killer_none (step_timestamp now e)) "killer_id" = true := by
      rw [hc2 _ (by decide)]
      exact hck
    have hcvB : containsKey (step_killer_none (step_timestamp now e)) "victim_id" = true := by
      rw [hc2 _ (by decide)]
      exact hcv
    have h3 : step_kill_block (step_killer_none (step_timestamp now e)) =
        step_classify (step_consoles (step_killer_none (step_timestamp now e))) := by
      unfold step_kill_block
      rw [if_pos ⟨hckB, hcvB⟩]
    have hkconc : containsKey (step_killer_none (step_timestamp now e)) "killer_console" = false := by
      rw [hc2 _ (by decide)]
      exact hkc0
    have hvconc : containsKey (step_killer_none (step_timestamp now e)) "victim_console" = false := by
      rw [hc2 _ (by decide)]
      exact hvc0
    have h4 : step_consoles (step_killer_none (step_timestamp now e)) =
        setKey (setKey (step_killer_none (step_timestamp now e))
          "killer_console" (.VStr "Unknown")) "victim_console" (.VStr "Unknown") := by
      unfold step_consoles
      rw [if_pos ⟨hkconc, hvconc⟩]
    have hfin : normalize_event_data e now =
        step_distance (step_strings (step_player_none (step_victim_none
          (step_classify (setKey (setKey (step_killer_none (step_timestamp now e))
            "killer_console" (.VStr "Unknown")) "victim_console" (.VStr "Unknown")))))) := by
      unfold normalize_event_data normalizeSteps pyDictCopy
      rw [h3, h4]
    constructor
    · rw [hfin, tail_steps_get _ _ (by decide) (by decide) (by decide) (by decide)
        (by decide) (by decide) (by decide) (by decide),
        step_classify_get _ _ (by decide) (by decide)]
      simp
    · rw [hfin, tail_steps_get _ _ (by decide) (by decide) (by decide) (by decide)
        (by decide) (by decide) (by decide) (by decide),
        step_classify_get _ _ (by decide) (by decide)]
      simp

/-- C5 (counterexample): with both console keys null, the `elif` chain fixes
only `killer_console`; `victim_console` is still null after normalization,
not `"Unknown"` as the claim states. -/
theorem c5_counterexample :
    pyGet (normalize_event_data c5ex1 dt0) "killer_console" = .VStr "Unknown" ∧
    pyGet (normalize_event_data c5ex1 dt0) "victim_console" = .VNone := by decide

/-- C5 (witness): the amended statement on the two concrete inputs. -/
theorem c5_witness :
    (pyGet (normalize_event_data c5ex1 dt0) "killer_console" = .VStr "Unknown" ∧
      pyGet (normalize_event_data c5ex1 dt0) "victim_console" = .VNone) ∧
    (pyGet (normalize_event_data c5ex2 dt0) "killer_console" = .VStr "Unknown" ∧
      pyGet (normalize_event_data c5ex2 dt0) "victim_console" = .VStr "Unknown") :=
  ⟨c5_amended.1 c5ex1 dt0 (by decide) (by decide) (by decide) (by decide),
   c5_amended.2 c5ex2 dt0 (by decide) (by decide) (by decide) (by decide)⟩


/-- C8 (witness): the three conditional parts instantiated at concrete
strings — an ISO string, a dotted-format string rejected by `fromisoformat`,
and an unparseable string. -/
theorem c8_witness :
    pyGet (normalize_event_data [("timestamp", .VStr "2024-03-15T01:02:03")] dt0) "timestamp" =
        .VDt ⟨2024, 3, 15, 1, 2, 3, 0⟩ ∧
    pyGet (normalize_event_data [("timestamp", .VStr "2024.03.15-14.30.00")] dt0) "timestamp" =
        .VDt ⟨2024, 3, 15, 14, 30, 0, 0⟩ ∧
    pyGet (normalize_event_data [("timestamp", .VStr "not-a-date")] dt0) "timestamp" = .VDt dt0 :=
  ⟨c8_timestamp_parsing.1 _ _ _ dt0 rfl (by decide),
   c8_timestamp_parsing.2.1 _ _ _ dt0 rfl (by decide) (by decide),
   c8_timestamp_parsing.2.2.1 _ _ dt0 rfl (by decide) (by decide)⟩

/-- C2 (counterexample): `c2ex` satisfies every hypothesis of the claim's
first part — no pre-set `event_type`, both IDs present, non-empty and
distinct — yet `categorize_event` returns `suicide` (the weapon `fall`
matches a suicide keyword), not `kill`. -/
theorem c2_counterexample :
    containsKey c2ex "event_type" = false ∧
    pyTruthy (pyGetD c2ex "killer_id" (.VStr "")) = true ∧
    pyTruthy (pyGetD c2ex "victim_id" (.VStr "")) = true ∧
    pyGetD c2ex "killer_id" (.VStr "") ≠ pyGetD c2ex "victim_id" (.VStr "") ∧
    categorize_event c2ex = some "suicide" := by decide

/-- C2 (amended): (1) with no pre-set `event_type`, non-empty distinct IDs,
a weapon that is absent or a string that neither matches the exact suicide
list nor contains a suicide keyword, and without matching non-empty names,
the classifier returns `kill`; (2) with no pre-set `event_type` and an
absent-or-string weapon, overwriting `killer_id` with the `victim_id` value
always yields `suicide`; (3) a pre-set `event_type` of `kill` or `suicide`
is returned verbatim — so making the IDs equal on an event already tagged
`kill` does not yield `suicide`. -/
theorem c2_amended :
    (∀ e : Event,
        containsKey e "event_type" = false →
        containsKey e "killer_id" = true → containsKey e "victim_id" = true →
        pyTruthy (pyGetD e "killer_id" (.VStr "")) = true →
        pyTruthy (pyGetD e "victim_id" (.VStr "")) = true →
        pyGetD e "killer_id" (.VStr "") ≠ pyGetD e "victim_id" (.VStr "") →
        (containsKey e "weapon" = false ∨
          ∃ w : String, pyGetD e "weapon" (.VStr "") = .VStr w ∧
            pyLower w ∉ ["suicide_by_relocation", "suicide", "suicide_fall"] ∧
            ∀ kw ∈ suicideKeywords, strContains (pyLower w) kw = false) →
        ¬((containsKey e "killer_name" = true ∧ containsKey e "victim_name" = true) ∧
            pyTruthy (pyGetD e "killer_name" (.VStr "")) = true ∧
            pyTruthy (pyGetD e "victim_name" (.VStr "")) = true ∧
            pyGetD e "killer_name" (.VStr "") = pyGetD e "victim_name" (.VStr "")) →
        categorize_event e = some "kill") ∧
    (∀ e : Event,
        containsKey e "event_type" = false →
        containsKey e "killer_id" = true → containsKey e "victim_id" = true →
        pyTruthy (pyGetD e "victim_id" (.VStr "")) = true →
        (containsKey e "weapon" = false ∨
          ∃ w : String, pyGetD e "weapon" (.VStr "") = .VStr w) →
        categorize_event (setKey e "killer_id" (pyGetD e "victim_id" (.VStr ""))) =
          some "suicide") ∧
    (∀ (e : Event) (s : String),
        containsKey e "event_type" = true →
        pyGet e "event_type" = .VStr s → (s = "kill" ∨ s = "suicide") →
        categorize_event e = some s) := by
  have hetfalse : ∀ (e : Event), containsKey e "event_type" = false →
      ∀ (P : Prop), ¬(containsKey e "event_type" = true ∧ P) := by
    intro e het P h
    rw [het] at h
    exact Bool.noConfusion h.1
  refine ⟨?_, ?_, ?_⟩
  · intro e het hck hcv htk htv hne hwok hnm
    have hkv : categorize_kv e = some "kill" := by
      unfold categorize_kv
      rw [if_pos ⟨hck, hcv⟩,
        if_neg (fun h => hne h.2.2),
        if_neg hnm,
        if_neg (fun h => hne h.2.2),
        if_neg ?hkw]
      case hkw =>
        rintro ⟨hcw2, hany⟩
        rcases hwok with habs | ⟨w, hwv, -, hnkw⟩
        · rw [habs] at hcw2
          exact Bool.noConfusion hcw2
        · rw [hwv] at hany
          simp only [pyStr] at hany
          rw [List.any_eq_true] at hany
          obtain ⟨kw, hmem, hcont⟩ := hany
          rw [hnkw kw hmem] at hcont
          exact Bool.noConfusion hcont
    unfold categorize_event
    rw [if_neg (hetfalse e het _), if_neg (hetfalse e het _), if_neg (hetfalse e het _),
      if_neg (hetfalse e het _), if_neg (hetfalse e het _)]
    unfold categorize_weapon
    rcases hwok with habs | ⟨w, hwv, hnex, -⟩
    · rw [if_neg (by rw [habs]; exact Bool.noConfusion)]
      exact hkv
    · by_cases hcw : containsKey e "weapon" = true
      · rw [if_pos hcw, hwv]
        show (if pyLower w ∈ ["suicide_by_relocation", "suicide", "suicide_fall"] then
            some "suicide" else categorize_kv e) = some "kill"
        rw [if_neg hnex]
        exact hkv
      · rw [if_neg hcw]
        exact hkv
  · intro e het hck hcv htv hwt
    have hks : pyGetD (setKey e "killer_id" (pyGetD e "victim_id" (.VStr "")))
        "killer_id" (.VStr "") = pyGetD e "victim_id" (.VStr "") := by
      simp
    have hvs : pyGetD (setKey e "killer_id" (pyGetD e "victim_id" (.VStr "")))
        "victim_id" (.VStr "") = pyGetD e "victim_id" (.VStr "") := by
      simp
    have hkv2 : categorize_kv (setKey e "killer_id" (pyGetD e "victim_id" (.VStr ""))) =
        some "suicide" := by
      unfold categorize_kv
      rw [if_pos ⟨by simp, by simp [hcv]⟩,
        if_pos ⟨by rw [hks]; exact htv, by rw [hvs]; exact htv, by rw [hks, hvs]⟩]
    have het2 : containsKey (setKey e "killer_id" (pyGetD e "victim_id" (.VStr "")))
        "event_type" = false := by
      simp [het]
    unfold categorize_event
    rw [if_neg (hetfalse _ het2 _), if_neg (hetfalse _ het2 _), if_neg (hetfalse _ het2 _),
      if_neg (hetfalse _ het2 _), if_neg (hetfalse _ het2 _)]
    unfold categorize_weapon
    rcases hwt with habs | ⟨w, hwv⟩
    · rw [if_neg (by simp [habs])]
      exact hkv2
    · by_cases hcw : containsKey (setKey e "killer_id" (pyGetD e "victim_id" (.VStr "")))
          "weapon" = true
      · rw [if_pos hcw]
        have hwv2 : pyGetD (setKey e "killer_id" (pyGetD e "victim_id" (.VStr "")))
            "weapon" (.VStr "") = .VStr w := by
          rw [pyGetD_setKey]
          rw [if_neg (by decide)]
          exact hwv
        rw [hwv2]
        show (if pyLower w ∈ ["suicide_by_relocation", "suicide", "suicide_fall"] then
            some "suicide"
          else categorize_kv (setKey e "killer_id" (pyGetD e "victim_id" (.VStr "")))) =
            some "suicide"
        by_cases hex : pyLower w ∈ ["suicide_by_relocation", "suicide", "suicide_fall"]
        · rw [if_pos hex]
        · rw [if_neg hex]
          exact hkv2
      · rw [if_neg hcw]
        exact hkv2
  · intro e s hck hv hs
    unfold categorize_event
    rcases hs with h | h <;> subst h
    · rw [if_pos ⟨hck, hv⟩]
    · rw [if_neg ?notkill, if_pos ⟨hck, hv⟩]
      case notkill =>
        rintro ⟨-, hkill⟩
        rw [hv] at hkill
        exact absurd (Value.VStr.inj hkill) (by decide)

/-- C2 (witness): the three amended parts at concrete events — a clean kill,
an ID-overwrite that turns into a suicide, and a pre-set `suicide` tag
returned verbatim. -/
theorem c2_witness :
    categorize_event [("killer_id", Value.VStr "a"), ("victim_id", Value.VStr "b"),
        ("weapon", Value.VStr "AK47")] = some "kill" ∧
    categorize_event (setKey [("killer_id", Value.VStr "a"), ("victim_id", Value.VStr "b"),
        ("weapon", Value.VStr "M4")] "killer_id"
        (pyGetD [("killer_id", Value.VStr "a"), ("victim_id", Value.VStr "b"),
          ("weapon", Value.VStr "M4")] "victim_id" (.VStr ""))) = some "suicide" ∧
    categorize_event [("event_type", Value.VStr "suicide"), ("killer_id", Value.VStr "a"),
        ("victim_id", Value.VStr "b")] = some "suicide" :=
  ⟨c2_amended.1 _ (by decide) (by decide) (by decide) (by decide) (by decide) (by decide)
      (Or.inr ⟨"AK47", by decide, by decide, by decide⟩) (by decide),
   c2_amended.2.1 _ (by decide) (by decide) (by decide) (by decide)
      (Or.inr ⟨"M4", by decide⟩),
   c2_amended.2.2 _ "suicide" (by decide) (by decide) (Or.inr rfl)⟩

theorem strExt {a b : String} (h : a.data = b.data) : a = b := by
  cases a
  cases b
  exact congrArg String.mk h

theorem swsFalse_iff (s : String) :
    startsWithSlash s = false ↔ s.data.head? ≠ some '/' := by
  simp [startsWithSlash]

theorem ewsFalse_iff (s : String) :
    endsWithSlash s = false ↔ s.data.getLast? ≠ some '/' := by
  simp [endsWithSlash]

theorem ne_true_of_false {b : Bool} (h : b = false) : ¬(b = true) := by
  rw [h]
  exact Bool.noConfusion

theorem sws_append_underscore (x y : String) (h : startsWithSlash x = false) :
    startsWithSlash (x ++ "_" ++ y) = false := by
  rw [swsFalse_iff] at h ⊢
  rw [strApp_data, strApp_data]
  cases hx : x.data with
  | nil =>
    intro hc
    exact absurd (Option.some.inj hc) (by decide)
  | cons c t =>
    rw [hx] at h
    simp only [List.cons_append, List.head?_cons] at h ⊢
    exact h

theorem ews_underscore_append (x y : String) (h : endsWithSlash y = false) :
    endsWithSlash ("/" ++ x ++ "_" ++ y) = false := by
  rw [ewsFalse_iff] at h ⊢
  rw [strApp_data, strApp_data, strApp_data]
  cases hy : y.data with
  | nil =>
    rw [List.append_nil]
    rw [List.getLast?_append_of_ne_nil _ (show (['_'] : List Char) ≠ [] by simp)]
    intro hc
    exact absurd (Option.some.inj hc) (by decide)
  | cons c t =>
    rw [hy] at h
    rw [List.getLast?_append_of_ne_nil _ (show (c :: t : List Char) ≠ [] by simp)]
    exact h

theorem ews_append_lit (x litStr : String) (hne : litStr.data ≠ [])
    (hl : litStr.data.getLast? ≠ some '/') : endsWithSlash (x ++ litStr) = false := by
  rw [ewsFalse_iff, strApp_data, List.getLast?_append_of_ne_nil _ hne]
  exact hl

theorem ne_empty_append (x litStr : String) (hne : litStr.data ≠ []) : x ++ litStr ≠ "" := by
  intro hc
  have h2 := congrArg String.data hc
  rw [strApp_data] at h2
  simp only [List.append_eq_nil] at h2
  rcases h2 with ⟨h21, h22⟩
  · exact hne h22

theorem slash_append_ne_empty (s : String) : "/" ++ s ≠ "" := by
  intro hc
  have h2 := congrArg String.data hc
  rw [strApp_data] at h2
  exact absurd h2 (by simp)

theorem pyPathJoin_slash (s : String) (h : startsWithSlash s = false) :
    pyPathJoin "/" s = "/" ++ s := by
  unfold pyPathJoin
  rw [if_neg (ne_true_of_false h), if_pos (Or.inr (by decide))]

theorem pyPathJoin_sep (a b : String) (hb : startsWithSlash b = false)
    (ha1 : a ≠ "") (ha2 : endsWithSlash a = false) :
    pyPathJoin a b = a ++ "/" ++ b := by
  unfold pyPathJoin
  rw [if_neg (ne_true_of_false hb), if_neg]
  rintro (hc | hc)
  · exact ha1 hc
  · exact ne_true_of_false ha2 hc

/-- C9 (amended): with a cleaned hostname that does not itself start with a
slash, a server id that does not end with one, and a relative nonempty world
directory, the path resolver produces exactly the concatenations claimed;
moreover a missing or empty hostname defaults to `server`, and a `:port`
suffix is stripped. -/
theorem c9_amended :
    (∀ (h : Option String) (sid : String),
        startsWithSlash (clean_hostname h) = false →
        endsWithSlash sid = false →
        get_base_path h sid = "/" ++ clean_hostname h ++ "_" ++ sid ∧
        get_log_path h sid = get_base_path h sid ++ "/Logs" ∧
        get_log_file_path h sid = get_base_path h sid ++ "/Logs/Deadside.log" ∧
        get_csv_path h sid none = get_base_path h sid ++ "/actual1/deathlogs") ∧
    (∀ (h : Option String) (sid w : String),
        startsWithSlash (clean_hostname h) = false →
        endsWithSlash sid = false →
        w ≠ "" → startsWithSlash w = false →
        get_csv_path h sid (some w) =
          get_base_path h sid ++ "/actual1/deathlogs/" ++ w) ∧
    (clean_hostname none = "server" ∧ clean_hostname (some "") = "server") ∧
    (∀ host port : String, (∀ c ∈ host.data, c ≠ ':') →
        clean_hostname (some (host ++ ":" ++ port)) = host) := by
  have hbase : ∀ (h : Option String) (sid : String),
      startsWithSlash (clean_hostname h) = false →
      get_base_path h sid = "/" ++ (clean_hostname h ++ "_" ++ sid) := by
    intro h sid hsw
    unfold get_base_path
    rw [pyPathJoin_slash _ (sws_append_underscore _ _ hsw)]
  have hbase_props : ∀ (h : Option String) (sid : String),
      startsWithSlash (clean_hostname h) = false →
      endsWithSlash sid = false →
      get_base_path h sid ≠ "" ∧ endsWithSlash (get_base_path h sid) = false := by
    intro h sid hsw hew
    rw [hbase h sid hsw]
    constructor
    · exact slash_append_ne_empty _
    · have hthis := ews_underscore_append (clean_hostname h) sid hew
      rw [ewsFalse_iff] at hthis ⊢
      simp only [strApp_data, List.append_assoc] at hthis ⊢
      exact hthis
  refine ⟨?_, ?_, ⟨rfl, rfl⟩, ?_⟩
  · intro h sid hsw hew
    obtain ⟨hne, hews⟩ := hbase_props h sid hsw hew
    refine ⟨?_, ?_, ?_, ?_⟩
    · rw [hbase h sid hsw]
      apply strExt
      simp [strApp_data, List.append_assoc]
    · unfold get_log_path
      rw [pyPathJoin_sep _ _ (by decide) hne hews]
      apply strExt
      simp [strApp_data, List.append_assoc]
    · unfold get_log_file_path get_log_path
      rw [pyPathJoin_sep _ _ (by decide) hne hews]
      have hshape : get_base_path h sid ++ "/" ++ "Logs" = get_base_path h sid ++ "/Logs" := by
        apply strExt
        simp [strApp_data, List.append_assoc]
      rw [hshape]
      rw [pyPathJoin_sep _ _ (by decide)
        (ne_empty_append _ "/Logs" (by decide))
        (ews_append_lit _ "/Logs" (by decide) (by decide))]
      apply strExt
      simp [strApp_data, List.append_assoc]
    · unfold get_csv_path
      dsimp only
      rw [pyPathJoin_sep _ _ (by decide) hne hews]
      have hshape : get_base_path h sid ++ "/" ++ "actual1" =
          get_base_path h sid ++ "/actual1" := by
        apply strExt
        simp [strApp_data, List.append_assoc]
      rw [hshape]
      rw [pyPathJoin_sep _ _ (by decide)
        (ne_empty_append _ "/actual1" (by decide))
        (ews_append_lit _ "/actual1" (by decide) (by decide))]
      apply strExt
      simp [strApp_data, List.append_assoc]
  · intro h sid w hsw hew hw1 hw2
    obtain ⟨hne, hews⟩ := hbase_props h sid hsw hew
    unfold get_csv_path
    dsimp only
    rw [if_pos hw1]
    rw [pyPathJoin_sep _ _ (by decide) hne hews]
    have hshape : get_base_path h sid ++ "/" ++ "actual1" =
        get_base_path h sid ++ "/actual1" := by
      apply strExt
      simp [strApp_data, List.append_assoc]
    rw [hshape]
    rw [pyPathJoin_sep _ _ (by decide)
      (ne_empty_append _ "/actual1" (by decide))
      (ews_append_lit _ "/actual1" (by decide) (by decide))]
    have hshape2 : get_base_path h sid ++ "/actual1" ++ "/" ++ "deathlogs" =
        get_base_path h sid ++ "/actual1" ++ "/deathlogs" := by
      apply strExt
      simp [strApp_data, List.append_assoc]
    rw [hshape2]
    rw [pyPathJoin_sep _ _ hw2
      (ne_empty_append _ "/deathlogs" (by decide))
      (ews_append_lit _ "/deathlogs" (by decide) (by decide))]
    apply strExt
    simp [strApp_data, List.append_assoc]
  · intro host port hnc
    have htake : ∀ (l : List Char), (∀ c ∈ l, c ≠ ':') →
        (l ++ (':' :: port.data)).takeWhile (fun c => decide (c ≠ ':')) = l := by
      intro l hl
      induction l with
      | nil => simp [List.takeWhile]
      | cons a t ih =>
        rw [List.cons_append]
        have ha : decide (a ≠ ':') = true := by
          simp [hl a (List.mem_cons_self _ _)]
        simp only [List.takeWhile_cons, ha, if_true]
        rw [ih (fun c hc => hl c (List.mem_cons_of_mem _ hc))]
    unfold clean_hostname
    dsimp only
    rw [if_neg]
    · apply strExt
      show ((host ++ ":" ++ port).data.takeWhile (fun c => decide (c ≠ ':'))) = host.data
      rw [strApp_data, strApp_data, List.append_assoc]
      exact htake host.data hnc
    · intro hc
      have h2 := congrArg String.data hc
      rw [strApp_data, strApp_data] at h2
      simp only [List.append_eq_nil] at h2
      exact absurd h2.1.2 (by decide)

/-- C9 (counterexample): the claim quantifies over every hostname, but for a
hostname beginning with `/` the absolute-path rule of `os.path.join` makes
the base directory `"/h_1"`, not the claimed `"/" + cleanHost + "_" +
serverId = "//h_1"`. -/
theorem c9_counterexample :
    clean_hostname (some "/h") = "/h" ∧
    get_base_path (some "/h") "1" = "/h_1" ∧
    get_base_path (some "/h") "1" ≠ "/" ++ clean_hostname (some "/h") ++ "_" ++ "1" := by
  decide

/-- C9 (witness): the amended statement at a concrete hostname with a port,
server id and world directory. -/
theorem c9_witness :
    (get_base_path (some "example.com:8822") "sv1" =
        "/" ++ clean_hostname (some "example.com:8822") ++ "_" ++ "sv1" ∧
      get_log_path (some "example.com:8822") "sv1" =
        get_base_path (some "example.com:8822") "sv1" ++ "/Logs" ∧
      get_log_file_path (some "example.com:8822") "sv1" =
        get_base_path (some "example.com:8822") "sv1" ++ "/Logs/Deadside.log" ∧
      get_csv_path (some "example.com:8822") "sv1" none =
        get_base_path (some "example.com:8822") "sv1" ++ "/actual1/deathlogs") ∧
    get_csv_path (some "example.com:8822") "sv1" (some "world_0") =
      get_base_path (some "example.com:8822") "sv1" ++ "/actual1/deathlogs/" ++ "world_0" ∧
    clean_hostname (some ("example.com" ++ ":" ++ "8822")) = "example.com" :=
  ⟨c9_amended.1 (some "example.com:8822") "sv1" (by decide) (by decide),
   c9_amended.2.1 (some "example.com:8822") "sv1" "world_0" (by decide) (by decide)
     (by decide) (by decide),
   c9_amended.2.2.2 "example.com" "8822" (by decide)⟩

theorem mem_le_foldr_max (l : List Nat) (i : Nat) (h : i ∈ l) : i ≤ l.foldr max 0 := by
  induction l with
  | nil => cases h
  | cons a t ih =>
    rcases List.mem_cons.mp h with rfl | hmem
    · exact Nat.le_max_left _ _
    · exact le_trans (ih hmem) (Nat.le_max_right _ _)

theorem heapGet_set_ne (h : PyHeap) (i j : Nat) (e : Event) (hne : i ≠ j) :
    heapGet (heapSet h j e) i = heapGet h i := by
  simp [heapGet, heapSet, lookupAssoc_setAssoc_ne _ _ _ _ hne]

theorem heapGet_set_self (h : PyHeap) (j : Nat) (e : Event) :
    heapGet (heapSet h j e) j = e := by
  simp [heapGet, heapSet, lookupAssoc_setAssoc_self]

/-- C10: `normalize_event_data` never mutates its argument — it works on a
freshly allocated shallow copy, so after the call the argument's dict holds
exactly the bindings it held before, and all defaulting, coercion and
tagging appear only on the returned dict (which equals the pure
`normalize_event_data`). -/
theorem c10_no_mutation (h : PyHeap) (eid : Nat) (now : Datetime)
    (hd : eid ∈ heapDom h) :
    heapGet (normalize_event_data_heap h eid now).1 eid = heapGet h eid ∧
    heapGet (normalize_event_data_heap h eid now).1 (normalize_event_data_heap h eid now).2 =
      normalize_event_data (heapGet h eid) now := by
  have hne : eid ≠ freshId h := by
    have := mem_le_foldr_max _ _ hd
    unfold freshId at this ⊢
    omega
  unfold normalize_event_data_heap
  dsimp only
  constructor
  · rw [heapGet_set_ne _ _ _ _ hne, heapGet_set_ne _ _ _ _ hne]
  · rw [heapGet_set_self, heapGet_set_self]
    rfl

/-- C10 (witness): on a concrete one-dict heap the argument dict is intact
after the call and the returned dict carries the normalized event. -/
theorem c10_witness :
    heapGet (normalize_event_data_heap ⟨[(0, [("killer_id", Value.VNone)])]⟩ 0 dt0).1 0 =
        heapGet ⟨[(0, [("killer_id", Value.VNone)])]⟩ 0 ∧
    heapGet (normalize_event_data_heap ⟨[(0, [("killer_id", Value.VNone)])]⟩ 0 dt0).1
        (normalize_event_data_heap ⟨[(0, [("killer_id", Value.VNone)])]⟩ 0 dt0).2 =
      normalize_event_data (heapGet ⟨[(0, [("killer_id", Value.VNone)])]⟩ 0) dt0 :=
  c10_no_mutation ⟨[(0, [("killer_id", Value.VNone)])]⟩ 0 dt0 (by decide)

end Pycoord
